import Mathlib

set_option maxHeartbeats 1000000

/- Shallow embedding of the tool-augmented conversation orchestrator of the
tytux repository.  Two variants exist in the source and are both embedded:
MCPGeminiAgent.agent_loop from src/client.py and
NewRelicGeminiAgent.agent_loop together with its direct HTTP executor
NewRelicGeminiAgent._execute_graphql from src/simplechat.py.  External
collaborators (the Gemini model backend, the MCP tool executor, the HTTP
layer) are parameters: functions from the request data the source sends to
an outcome that is either a returned value or a raised exceptionary message,
mirroring the Python call sites.  Conversation state is the explicit list of
Content values that the source keeps in self.contents. -/

namespace Tytux

/-- Payload of one function-response part: the Python dict with a single
key, either result or error, built in both agent loops. -/
inductive ToolPayload where
  | result (s : String)
  | error (s : String)
deriving Repr, DecidableEq

/-- One part of a conversation turn: free text, or a tool response part
built with types.Part.from_function_response. -/
inductive Part where
  | text (s : String)
  | functionResponse (name : String) (payload : ToolPayload)
deriving Repr, DecidableEq

/-- google.genai types.Content: a role plus a list of parts.  The field
textAttr models the SDK text accessor used at extraction time by
client.py line 224; none means that accessing it raises. -/
structure Content where
  role : String
  parts : List Part
  textAttr : Option String
deriving Repr, DecidableEq

/-- Content with role user and a single text part, as built by
types.Content(role="user", parts=[types.Part(text=prompt)]). -/
def userTextTurn (s : String) : Content := ⟨"user", [Part.text s], none⟩

/-- Arguments of a model tool invocation.  The source reads exactly the two
keys query and variables of the argument mapping (simplechat.py line 131),
so the mapping is embedded as those two optional fields; varsMap stands
for the value of the variables key. -/
structure Args where
  query : Option String
  varsMap : Option (List (String × String))
deriving Repr, DecidableEq

/-- The empty argument mapping, the default taken by fc_part.args or ... -/
def emptyArgs : Args := ⟨none, none⟩

/-- One function call requested by the model; args is none when the SDK
field is None (the source defaults it to the empty mapping). -/
structure FunctionCall where
  name : String
  args : Option Args
deriving Repr, DecidableEq

instance : DecidableEq (Except String String) := fun a b =>
  match a, b with
  | .error x, .error y =>
      if h : x = y then isTrue (by rw [h])
      else isFalse (fun hc => h (Except.error.inj hc))
  | .error _, .ok _ => isFalse (fun hc => Except.noConfusion hc)
  | .ok _, .error _ => isFalse (fun hc => Except.noConfusion hc)
  | .ok x, .ok y =>
      if h : x = y then isTrue (by rw [h])
      else isFalse (fun hc => h (Except.ok.inj hc))

/-- A model backend reply as observed by the source: the candidate list
(each candidate collapsed to its content), the function_calls accessor, and
the text accessor of the whole response (used by simplechat.py lines
158-159; Except.error m means accessing it raises an exception rendered as
m). -/
structure GenResponse where
  candidates : List Content
  function_calls : List FunctionCall
  text : Except String String
deriving Repr, DecidableEq

/-- Temperature policy values the source uses: 0 on the first call of a
user turn, 1.0 on every later round-trip of the same turn. -/
inductive Temp where
  | t0
  | t1
deriving Repr, DecidableEq

/-- A tool descriptor as advertised to the model: name and description
(the function_declarations built in both agent loops). -/
structure ToolDescriptor where
  name : String
  description : String
deriving Repr, DecidableEq

/-- Record of one model backend call: the conversation snapshot sent, the
temperature, and the tool declarations sent along. -/
structure BackendCall where
  snapshot : List Content
  temp : Temp
  tools : List ToolDescriptor
deriving Repr, DecidableEq

/-- Outcome of one generate_content call: an exception (message as
rendered by str(e)) or a response. -/
inductive GenOutcome where
  | raises (msg : String)
  | returns (resp : GenResponse)
deriving Repr, DecidableEq

/-- The model backend boundary: contents snapshot, temperature and tool
declarations in, outcome out. -/
abbrev Backend := List Content → Temp → List ToolDescriptor → GenOutcome

/-- Outcome of one MCP session.call_tool call in client.py: an exception
(type name and message), or a CallToolResult with isError flag and the
texts of its content list. -/
inductive ToolCallOutcome where
  | raises (typeName msg : String)
  | returns (isErrorFlag : Bool) (contentTexts : List String)
deriving Repr, DecidableEq

/-- The MCP tool executor boundary of client.py. -/
abbrev McpExec := String → Args → ToolCallOutcome

/-- Embeds client.py lines 163-181: build the function-response part for
one function call.  The argument mapping defaults to empty; an executor
exception becomes an error payload prefixed Tool execution failed; a
result with empty content raises IndexError inside the same try and is
converted the same way; otherwise the first content text is packaged under
error or result according to isError. -/
def mcpToolAnswer (e : McpExec) (fc : FunctionCall) : Part :=
  let args := fc.args.getD emptyArgs
  match e fc.name args with
  | .raises tn m =>
      .functionResponse fc.name (.error ("Tool execution failed: " ++ tn ++ ": " ++ m))
  | .returns isErrorFlag contentTexts =>
      match contentTexts.head? with
      | none =>
          .functionResponse fc.name
            (.error "Tool execution failed: IndexError: list index out of range")
      | some t =>
          .functionResponse fc.name (if isErrorFlag then .error t else .result t)

/-- The single tool-result turn appended after executing the function
calls of one model reply: role user, one part per invocation, in
invocation order (client.py lines 162-182, simplechat.py lines 123-143). -/
def toolResultTurn (answer : FunctionCall → Part) (fcs : List FunctionCall) : Content :=
  ⟨"user", fcs.map answer, none⟩

/-- Output of the client tool-call loop: the response in hand when the
loop exits, the conversation contents, plus the traces of backend calls
and executor calls made inside the loop. -/
structure ClientLoopOut where
  resp : GenResponse
  contents : List Content
  calls : List BackendCall
  execs : List (String × Args)
deriving Repr

/-- Prepend the record of one backend call and its executor calls to a
client loop output. -/
def consCallC (cl : BackendCall) (ex : List (String × Args)) (rest : ClientLoopOut) :
    ClientLoopOut :=
  ⟨rest.resp, rest.contents, cl :: rest.calls, ex ++ rest.execs⟩

/-- Embeds the while loop of client.py lines 158-201.  Fuel is the number
of remaining allowed round-trips (max_tool_turns minus turn_count).  On a
backend exception the source prints and continues with the last valid
response (lines 199-201), so the recursion keeps the stale response; on a
response without candidates the response is replaced but nothing is
appended (lines 195-198). -/
def clientLoop (b : Backend) (e : McpExec) (tl : List ToolDescriptor) :
    Nat → GenResponse → List Content → ClientLoopOut
  | 0, resp, contents => ⟨resp, contents, [], []⟩
  | fuel+1, resp, contents =>
    if resp.function_calls = [] then ⟨resp, contents, [], []⟩
    else
      match b (contents ++ [toolResultTurn (mcpToolAnswer e) resp.function_calls]) .t1 tl with
      | .raises _ =>
          consCallC ⟨contents ++ [toolResultTurn (mcpToolAnswer e) resp.function_calls], .t1, tl⟩
            (resp.function_calls.map (fun fc => (fc.name, fc.args.getD emptyArgs)))
            (clientLoop b e tl fuel resp
              (contents ++ [toolResultTurn (mcpToolAnswer e) resp.function_calls]))
      | .returns r =>
          match r.candidates.head? with
          | some c =>
              consCallC ⟨contents ++ [toolResultTurn (mcpToolAnswer e) resp.function_calls], .t1, tl⟩
                (resp.function_calls.map (fun fc => (fc.name, fc.args.getD emptyArgs)))
                (clientLoop b e tl fuel r
                  ((contents ++ [toolResultTurn (mcpToolAnswer e) resp.function_calls]) ++ [c]))
          | none =>
              consCallC ⟨contents ++ [toolResultTurn (mcpToolAnswer e) resp.function_calls], .t1, tl⟩
                (resp.function_calls.map (fun fc => (fc.name, fc.args.getD emptyArgs)))
                (clientLoop b e tl fuel r
                  (contents ++ [toolResultTurn (mcpToolAnswer e) resp.function_calls]))

/-- Embeds the final extraction of client.py lines 206-236: text of the
first candidate when present, otherwise one of the two fixed fallback
strings.  The response-is-None branch of line 211 and the outer fallback
of lines 238-249 are unreachable in the embedding because the earlier
error path already returned and attribute assignment cannot fail. -/
def clientFinalText (resp : GenResponse) : String :=
  match resp.candidates.head? with
  | none => "I received an incomplete response. Please try again."
  | some c =>
      match c.textAttr with
      | none => "I encountered an error processing the response. Please try again."
      | some t => t

/-- Result of one client agent_loop invocation: the result as seen by the
caller (Except.error m is an exception propagating out, which the source
only does when session.list_tools fails; Except.ok s is the text carried
by the returned response object), the final conversation contents, and the
traces of backend calls and executor calls. -/
structure ClientRun where
  result : Except String String
  contents : List Content
  calls : List BackendCall
  execs : List (String × Args)
deriving Repr

namespace MCPGeminiAgent

/-- Embeds MCPGeminiAgent.agent_loop of client.py lines 94-249.  The user
turn is appended before anything can fail (line 99).  listToolsRes is the
outcome of self.session.list_tools (line 103, not guarded by any try, so a
failure propagates).  hasApiKey models the GEMINI_API_KEY presence check
of lines 117-120.  A failing or candidate-less initial call returns the
synthetic SimpleResponse of line 156 whose text starts with Error calling
Gemini API. -/
def agent_loop (b : Backend) (e : McpExec)
    (listToolsRes : Except String (List ToolDescriptor))
    (hasApiKey : Bool) (initial : List Content) (prompt : String) : ClientRun :=
  match listToolsRes with
  | .error m => ⟨.error m, initial ++ [userTextTurn prompt], [], []⟩
  | .ok tl =>
    if !hasApiKey then
      ⟨.ok "Error calling Gemini API: Gemini API key is missing. Please set the GEMINI_API_KEY environment variable.",
       initial ++ [userTextTurn prompt], [], []⟩
    else
      match b (initial ++ [userTextTurn prompt]) .t0 tl with
      | .raises m =>
          ⟨.ok ("Error calling Gemini API: " ++ m), initial ++ [userTextTurn prompt],
           [⟨initial ++ [userTextTurn prompt], .t0, tl⟩], []⟩
      | .returns resp =>
          match resp.candidates.head? with
          | none =>
              ⟨.ok "Error calling Gemini API: Gemini response missing expected \x27candidates\x27 attribute",
               initial ++ [userTextTurn prompt], [⟨initial ++ [userTextTurn prompt], .t0, tl⟩], []⟩
          | some c =>
              ⟨.ok (clientFinalText (clientLoop b e tl 5 resp ((initial ++ [userTextTurn prompt]) ++ [c])).resp),
               (clientLoop b e tl 5 resp ((initial ++ [userTextTurn prompt]) ++ [c])).contents,
               ⟨initial ++ [userTextTurn prompt], .t0, tl⟩ ::
                 (clientLoop b e tl 5 resp ((initial ++ [userTextTurn prompt]) ++ [c])).calls,
               (clientLoop b e tl 5 resp ((initial ++ [userTextTurn prompt]) ++ [c])).execs⟩

end MCPGeminiAgent

/-- A Python exception as observed by the except clauses of
simplechat.py: the type name used by type(e).__name__ and the message
used by str(e). -/
structure PyExc where
  typeName : String
  msg : String
deriving Repr, DecidableEq

/-- The parsed JSON body of a GraphQL response.  dataField is the opaque
rendering of the data entry when present; errors is some when the errors
key is present (the source tests key presence, not emptiness). -/
structure GraphQLJson where
  dataField : Option String
  errors : Option (List String)
deriving Repr, DecidableEq

/-- String rendering of a JSON string value. -/
def quoteStr (s : String) : String := "\"" ++ s ++ "\""

/-- Rendering of the errors list, standing for the Python f-string
interpolation of error_details at simplechat.py line 202. -/
def errorsRepr (l : List String) : String :=
  "[" ++ String.intercalate ", " (l.map quoteStr) ++ "]"

/-- Abstraction of json.dumps applied to the parsed GraphQL response dict
(simplechat.py line 132): a deterministic serialization of the embedded
GraphQLJson value. -/
def jsonDumps (j : GraphQLJson) : String :=
  let base := match j.dataField with
    | some d => "\x7b\"data\": " ++ d
    | none => "\x7b"
  match j.errors with
  | some errs => base ++ ", \"errors\": " ++ errorsRepr errs ++ "\x7d"
  | none => base ++ "\x7d"

/-- One HTTP POST request as issued by requests.post in
simplechat.py lines 189-194: endpoint, API key header, the JSON body
consisting of the query and the variables mapping, and the request
timeout in seconds. -/
structure HttpRequest where
  endpoint : String
  apiKey : String
  query : String
  varsMap : List (String × String)
  timeout : Nat
deriving Repr, DecidableEq

/-- Outcome of the HTTP POST: a requests.RequestException, or a response
with a status code, the parsed JSON body (none when response.json()
raises), and the raw response text. -/
inductive HttpOutcome where
  | requestException (msg : String)
  | response (status : Nat) (json : Option GraphQLJson) (text : String)
deriving Repr, DecidableEq

/-- The HTTP boundary of the direct executor. -/
abbrev Http := HttpRequest → HttpOutcome

/-- Configuration of the NewRelicGeminiAgent read from the environment in
its constructor: the account id (none when unset; the empty string is
falsy like None), the API key and the endpoint. -/
structure SimpleCfg where
  accountId : Option String
  apiKey : String
  endpoint : String
deriving Repr, DecidableEq

/-- Python truthiness of an optional string: None and the empty string
are falsy. -/
def pyTruthyStr : Option String → Bool
  | none => false
  | some s => s ≠ ""

/-- Membership test of a key in the variables mapping, embedding the
Python expression accountId not in variables. -/
def hasKey (k : String) (m : List (String × String)) : Bool :=
  m.any (fun p => p.1 == k)

namespace NewRelicGeminiAgent

/-- Embeds simplechat.py lines 167-172 of _execute_graphql: a missing
variables argument is replaced by the empty mapping, and when the mapping
has no accountId key and the configured account id is truthy, the
accountId entry is added. -/
def prepareVariables (accountId : Option String)
    (vars : Option (List (String × String))) : List (String × String) :=
  let v := vars.getD []
  if !hasKey "accountId" v && pyTruthyStr accountId then
    v ++ [("accountId", accountId.getD "")]
  else v

/-- Output of one _execute_graphql call: the returned JSON or the raised
exception, plus the trace of HTTP requests issued. -/
structure GraphQLCallOut where
  result : Except PyExc GraphQLJson
  requests : List HttpRequest
deriving Repr

/-- Embeds NewRelicGeminiAgent._execute_graphql, simplechat.py lines
165-218.  Exactly one HTTP POST is issued, with body query and prepared
variables and timeout 30.  A requests.RequestException is re-raised as a
plain Exception with a Network error message; a non-200 status raises a
plain Exception whose message carries the status code plus either the
errors entry of the parsed body or the raw text when the body does not
parse; a 200 response that does not parse as JSON raises a plain
Exception; a 200 response that parses is returned as a success even when
its errors key is present (the source only logs a warning, lines
209-213). -/
def executeGraphql (cfg : SimpleCfg) (http : Http) (query : String)
    (vars : Option (List (String × String))) : GraphQLCallOut :=
  let v := prepareVariables cfg.accountId vars
  let req : HttpRequest := ⟨cfg.endpoint, cfg.apiKey, query, v, 30⟩
  match http req with
  | .requestException m =>
      ⟨.error ⟨"Exception", "Network error during GraphQL request: " ++ m⟩, [req]⟩
  | .response status json text =>
      if status ≠ 200 then
        let base := "GraphQL request failed with status code " ++ toString status
        let msg := match json with
          | some j =>
              match j.errors with
              | some errs => base ++ ": " ++ errorsRepr errs
              | none => base
          | none => base ++ ": " ++ text
        ⟨.error ⟨"Exception", msg⟩, [req]⟩
      else
        match json with
        | none => ⟨.error ⟨"Exception", "Invalid JSON response from GraphQL endpoint"⟩, [req]⟩
        | some j => ⟨.ok j, [req]⟩

end NewRelicGeminiAgent

/-- The static tool catalog declared in NewRelicGeminiAgent.__init__,
simplechat.py lines 38-51, in dict insertion order.  The identical
parameter schema attached to each declaration at lines 89-102 carries no
per-tool information and is omitted from the descriptor. -/
def simplechatTools : List ToolDescriptor :=
  [⟨"executeQuery", "Execute a GraphQL query against the New Relic API"⟩,
   ⟨"describeDomain", "Get information about the schema and available GraphQL types"⟩,
   ⟨"introspect", "Perform GraphQL introspection to discover the schema"⟩]

namespace NewRelicGeminiAgent

/-- Embeds simplechat.py lines 125-140: answer one function call by
running _execute_graphql on the query and variables entries of the
argument mapping (with their defaults), packaging a success as a result
payload holding the serialized JSON and an exception as a Tool execution
failed error payload. -/
def simpleToolAnswer (cfg : SimpleCfg) (http : Http) (fc : FunctionCall) : Part :=
  let args := fc.args.getD emptyArgs
  let query := args.query.getD ""
  let v := args.varsMap.getD []
  match (executeGraphql cfg http query (some v)).result with
  | .ok j => .functionResponse fc.name (.result (jsonDumps j))
  | .error exc =>
      .functionResponse fc.name
        (.error ("Tool execution failed: " ++ exc.typeName ++ ": " ++ exc.msg))

/-- Output of the simplechat tool-call loop: either the response in hand
when the loop exits or the message of an exception that escaped the loop
body (to be caught by the outer handler), whether the round-trip cap was
consumed, the conversation contents, and the backend call trace. -/
structure SimpleLoopOut where
  outcome : Except String GenResponse
  exhausted : Bool
  contents : List Content
  calls : List BackendCall
deriving Repr

/-- Prepend the record of one backend call to a simplechat loop output. -/
def consCallS (cl : BackendCall) (rest : SimpleLoopOut) : SimpleLoopOut :=
  ⟨rest.outcome, rest.exhausted, rest.contents, cl :: rest.calls⟩

/-- Embeds the while loop of simplechat.py lines 119-154.  Fuel is the
number of remaining allowed round-trips.  A backend exception or a
response without candidates escapes the loop (the containing try swallows
it at line 161); indexing an empty candidate list raises IndexError whose
str is list index out of range. -/
def simpleLoop (b : Backend) (cfg : SimpleCfg) (http : Http) :
    Nat → GenResponse → List Content → SimpleLoopOut
  | 0, resp, contents => ⟨.ok resp, true, contents, []⟩
  | fuel+1, resp, contents =>
    if resp.function_calls = [] then ⟨.ok resp, false, contents, []⟩
    else
      match b (contents ++ [toolResultTurn (simpleToolAnswer cfg http) resp.function_calls]) .t1 simplechatTools with
      | .raises m =>
          ⟨.error m, false,
           contents ++ [toolResultTurn (simpleToolAnswer cfg http) resp.function_calls],
           [⟨contents ++ [toolResultTurn (simpleToolAnswer cfg http) resp.function_calls], .t1, simplechatTools⟩]⟩
      | .returns r =>
          match r.candidates.head? with
          | none =>
              ⟨.error "list index out of range", false,
               contents ++ [toolResultTurn (simpleToolAnswer cfg http) resp.function_calls],
               [⟨contents ++ [toolResultTurn (simpleToolAnswer cfg http) resp.function_calls], .t1, simplechatTools⟩]⟩
          | some c =>
              consCallS ⟨contents ++ [toolResultTurn (simpleToolAnswer cfg http) resp.function_calls], .t1, simplechatTools⟩
                (simpleLoop b cfg http fuel r
                  ((contents ++ [toolResultTurn (simpleToolAnswer cfg http) resp.function_calls]) ++ [c]))

/-- Result of one simplechat agent_loop invocation: the result as seen by
the caller, the final conversation contents and the backend call trace.
The source wraps the whole body in try/except and returns an Error
processing request string from the handler, so the result is always
Except.ok; the Except type records that nothing escapes as an
exception. -/
structure SimpleRun where
  result : Except String String
  contents : List Content
  calls : List BackendCall
deriving Repr

/-- Embeds the return path of simplechat agent_loop (lines 156-163)
applied to the loop output, given the record of the initial backend call:
a loop-escaping exception is converted by the outer handler into an Error
processing request string; when the cap was consumed and tools are still
requested the truncation string of line 158 is built from the response
text; otherwise the response text itself is returned; in both of the last
two cases a failing text accessor raises and the outer handler converts
it. -/
def finishRun (first : BackendCall) (out : SimpleLoopOut) : SimpleRun :=
  match out.outcome with
  | .error m => ⟨.ok ("Error processing request: " ++ m), out.contents, first :: out.calls⟩
  | .ok finalResp =>
      if out.exhausted && !(finalResp.function_calls = []) then
        match finalResp.text with
        | .ok t =>
            ⟨.ok ("Response exceeded maximum of 5 tool calls. Partial response: " ++ t),
             out.contents, first :: out.calls⟩
        | .error m => ⟨.ok ("Error processing request: " ++ m), out.contents, first :: out.calls⟩
      else
        match finalResp.text with
        | .ok t => ⟨.ok t, out.contents, first :: out.calls⟩
        | .error m => ⟨.ok ("Error processing request: " ++ m), out.contents, first :: out.calls⟩

/-- Embeds NewRelicGeminiAgent.agent_loop of simplechat.py lines 78-163.
The user turn is appended before the try block (line 81).  Every
exception raised inside the body — a failing backend call, a response
without candidates, a failing text accessor — is converted by the outer
handler into the string Error processing request followed by the message.
When the cap is consumed and the final response still requests tools, the
truncation string of line 158 is returned with the partial text. -/
def agent_loop (b : Backend) (cfg : SimpleCfg) (http : Http)
    (initial : List Content) (prompt : String) : SimpleRun :=
  match b (initial ++ [userTextTurn prompt]) .t0 simplechatTools with
  | .raises m =>
      ⟨.ok ("Error processing request: " ++ m), initial ++ [userTextTurn prompt],
       [⟨initial ++ [userTextTurn prompt], .t0, simplechatTools⟩]⟩
  | .returns resp =>
    match resp.candidates.head? with
    | none =>
        ⟨.ok "Error processing request: list index out of range",
         initial ++ [userTextTurn prompt],
         [⟨initial ++ [userTextTurn prompt], .t0, simplechatTools⟩]⟩
    | some c =>
        finishRun ⟨initial ++ [userTextTurn prompt], .t0, simplechatTools⟩
          (simpleLoop b cfg http 5 resp ((initial ++ [userTextTurn prompt]) ++ [c]))

end NewRelicGeminiAgent

/-- Last element of a backend call trace. -/
def lastCall : List BackendCall → Option BackendCall
  | [] => none
  | [c] => some c
  | _ :: c :: t => lastCall (c :: t)

/-- Boolean test that p is an initial segment of s. -/
def strStarts (p s : String) : Bool := p.data.isPrefixOf s.data

/-- A model backend that requests at least one tool invocation on every
reply, with a well-formed reply shape: some candidate content whose text
accessor succeeds, agreeing with the response-level text accessor. -/
def AlwaysToolBackend (b : Backend) : Prop :=
  ∀ cs temp tl, ∃ r c t, b cs temp tl = GenOutcome.returns r ∧
    r.function_calls ≠ [] ∧ r.candidates.head? = some c ∧
    c.textAttr = some t ∧ r.text = Except.ok t

/-- Model content with one text part and a succeeding text accessor. -/
def modelTurn (s : String) : Content := ⟨"model", [Part.text s], some s⟩

/-- Concrete reply requesting one tool call, with text indexed by the
snapshot length so that distinct round-trips produce distinct texts. -/
def alwaysToolResp (n : Nat) : GenResponse :=
  ⟨[modelTurn ("m" ++ toString n)], [⟨"executeQuery", some emptyArgs⟩],
   .ok ("m" ++ toString n)⟩

/-- Concrete backend that requests a tool on every reply. -/
def cexBackendAlways : Backend := fun cs _ _ => .returns (alwaysToolResp cs.length)

/-- Concrete executor that always succeeds. -/
def cexExecOk : McpExec := fun _ _ => .returns false ["ok"]

/-- Concrete tool catalog for client fixtures. -/
def cexTools : List ToolDescriptor := [⟨"executeQuery", "run a query"⟩]

/-- Concrete reply with one tool call and fixed text. -/
def oneToolResp : GenResponse :=
  ⟨[modelTurn "t0"], [⟨"executeQuery", some emptyArgs⟩], .ok "t0"⟩

/-- Concrete backend that answers the first call (snapshot of one turn)
with a tool request and raises on every later call. -/
def cexBackendFailsLater : Backend := fun cs _ _ =>
  if cs.length ≤ 1 then .returns oneToolResp else .raises "boom"

/-- Concrete reply with no tool calls. -/
def plainResp (s : String) : GenResponse := ⟨[modelTurn s], [], .ok s⟩

/-- Concrete backend that never requests tools. -/
def cexBackendNoTools : Backend := fun _ _ _ => .returns (plainResp "ok")

/-- Concrete backend whose reply has a candidate but a failing text
accessor raising with the given message. -/
def cexBackendBrokenText (m : String) : Backend := fun _ _ _ =>
  .returns ⟨[⟨"model", [], none⟩], [], .error m⟩

/-- Concrete session tool listing that advertises one tool on the first
fetch and two tools on every later fetch. -/
def cexSessionTools : Nat → Except String (List ToolDescriptor)
  | 0 => .ok [⟨"toolA", "a"⟩]
  | _ => .ok [⟨"toolA", "a"⟩, ⟨"toolB", "b"⟩]

/-- Concrete executor that always raises. -/
def cexExecRaises : McpExec := fun _ _ => .raises "RuntimeError" "boom"

/-- Concrete HTTP layer answering 200 with a well-formed body. -/
def cexHttpOk : Http := fun _ => .response 200 (some ⟨some "1", none⟩) "raw"

/-- Concrete HTTP layer answering 200 with a body whose errors field is
populated. -/
def cexHttp200Errors : Http := fun _ => .response 200 (some ⟨some "1", some ["boom"]⟩) "raw"

/-- Concrete agent configuration. -/
def cexCfg : SimpleCfg := ⟨some "42", "key", "https://api.newrelic.com/graphql"⟩

/-- Concrete pair of function calls, to exhibit order preservation. -/
def cexFcs : List FunctionCall := [⟨"alpha", none⟩, ⟨"beta", some emptyArgs⟩]

/-- Concrete backend that raises on every call. -/
def cexBackendFailsNow : Backend := fun _ _ _ => .raises "down"

/-- Concrete executor that reports an application error. -/
def cexExecAppError : McpExec := fun _ _ => .returns true ["bad query"]

/-- Concrete HTTP layer that raises a transport exception. -/
def cexHttpDown : Http := fun _ => .requestException "conn refused"

/-- Concrete HTTP layer answering status 500 with an unparsable body. -/
def cexHttp500 : Http := fun _ => .response 500 none "server error"

/-- Concrete HTTP layer answering 200 with an unparsable body. -/
def cexHttpBadJson : Http := fun _ => .response 200 none "not json"

/-- The second backend call of the simplechat always-tool fixture run:
first round-trip inside the loop, temperature 1.0. -/
def cexSecondCall : BackendCall :=
  ⟨[userTextTurn "hi", modelTurn "m1",
    toolResultTurn (NewRelicGeminiAgent.simpleToolAnswer cexCfg cexHttpOk)
      (alwaysToolResp 1).function_calls],
   Temp.t1, simplechatTools⟩

/-- Every backend call made inside the client tool-call loop uses
temperature 1.0 and the tool declarations fetched at the start of the
enclosing agent_loop invocation. -/
theorem clientLoop_calls_fields (b : Backend) (e : McpExec) (tl : List ToolDescriptor) :
    ∀ (fuel : Nat) (resp : GenResponse) (contents : List Content) (c : BackendCall),
      c ∈ (clientLoop b e tl fuel resp contents).calls →
      c.temp = Temp.t1 ∧ c.tools = tl := by
  intro fuel
  induction fuel with
  | zero => intro resp contents c hc; simp [clientLoop] at hc
  | succ n ih =>
    intro resp contents c hc
    by_cases hfc : resp.function_calls = []
    · simp [clientLoop, hfc] at hc
    · rw [clientLoop] at hc
      rw [if_neg hfc] at hc
      split at hc
      · simp only [consCallC, List.mem_cons] at hc
        rcases hc with hc | hc
        · subst hc; exact ⟨rfl, rfl⟩
        · exact ih _ _ _ hc
      · split at hc
        · simp only [consCallC, List.mem_cons] at hc
          rcases hc with hc | hc
          · subst hc; exact ⟨rfl, rfl⟩
          · exact ih _ _ _ hc
        · simp only [consCallC, List.mem_cons] at hc
          rcases hc with hc | hc
          · subst hc; exact ⟨rfl, rfl⟩
          · exact ih _ _ _ hc

/-- Every backend call made inside the simplechat tool-call loop uses
temperature 1.0 and the static catalog. -/
theorem simpleLoop_calls_fields (b : Backend) (cfg : SimpleCfg) (http : Http) :
    ∀ (fuel : Nat) (resp : GenResponse) (contents : List Content) (c : BackendCall),
      c ∈ (NewRelicGeminiAgent.simpleLoop b cfg http fuel resp contents).calls →
      c.temp = Temp.t1 ∧ c.tools = simplechatTools := by
  intro fuel
  induction fuel with
  | zero => intro resp contents c hc; simp [NewRelicGeminiAgent.simpleLoop] at hc
  | succ n ih =>
    intro resp contents c hc
    by_cases hfc : resp.function_calls = []
    · simp [NewRelicGeminiAgent.simpleLoop, hfc] at hc
    · rw [NewRelicGeminiAgent.simpleLoop] at hc
      rw [if_neg hfc] at hc
      split at hc
      · simp only [List.mem_singleton] at hc
        subst hc; exact ⟨rfl, rfl⟩
      · split at hc
        · simp only [List.mem_singleton] at hc
          subst hc; exact ⟨rfl, rfl⟩
        · simp only [NewRelicGeminiAgent.consCallS, List.mem_cons] at hc
          rcases hc with hc | hc
          · subst hc; exact ⟨rfl, rfl⟩
          · exact ih _ _ _ hc


/-- Helper: lastCall skips the head of a nonempty tail. -/
theorem lastCall_cons (a : BackendCall) (l : List BackendCall) (h : l ≠ []) :
    lastCall (a :: l) = lastCall l := by
  cases l with
  | nil => exact absurd rfl h
  | cons x t => rfl

/-- One-step unfolding of the client loop when the backend call of the
round-trip raises: the loop records the call and continues with the stale
response (client.py lines 199-201). -/
theorem clientLoop_step_raises (b : Backend) (e : McpExec) (tl : List ToolDescriptor)
    (fuel : Nat) (resp : GenResponse) (contents : List Content)
    (hfc : resp.function_calls ≠ []) (m : String)
    (hb : b (contents ++ [toolResultTurn (mcpToolAnswer e) resp.function_calls]) Temp.t1 tl =
      GenOutcome.raises m) :
    clientLoop b e tl (fuel + 1) resp contents =
      ⟨(clientLoop b e tl fuel resp (contents ++ [toolResultTurn (mcpToolAnswer e) resp.function_calls])).resp,
       (clientLoop b e tl fuel resp (contents ++ [toolResultTurn (mcpToolAnswer e) resp.function_calls])).contents,
       ⟨contents ++ [toolResultTurn (mcpToolAnswer e) resp.function_calls], Temp.t1, tl⟩ ::
         (clientLoop b e tl fuel resp (contents ++ [toolResultTurn (mcpToolAnswer e) resp.function_calls])).calls,
       resp.function_calls.map (fun fc => (fc.name, fc.args.getD emptyArgs)) ++
         (clientLoop b e tl fuel resp (contents ++ [toolResultTurn (mcpToolAnswer e) resp.function_calls])).execs⟩ := by
  rw [clientLoop, if_neg hfc]
  split
  · rfl
  · rename_i r heq
    rw [hb] at heq
    cases heq

/-- One-step unfolding of the client loop when the backend call returns a
response carrying a first candidate: the candidate is appended and the
loop continues with the new response. -/
theorem clientLoop_step_returns_some (b : Backend) (e : McpExec) (tl : List ToolDescriptor)
    (fuel : Nat) (resp : GenResponse) (contents : List Content)
    (hfc : resp.function_calls ≠ []) (r : GenResponse) (c : Content)
    (hb : b (contents ++ [toolResultTurn (mcpToolAnswer e) resp.function_calls]) Temp.t1 tl =
      GenOutcome.returns r)
    (hcand : r.candidates.head? = some c) :
    clientLoop b e tl (fuel + 1) resp contents =
      ⟨(clientLoop b e tl fuel r ((contents ++ [toolResultTurn (mcpToolAnswer e) resp.function_calls]) ++ [c])).resp,
       (clientLoop b e tl fuel r ((contents ++ [toolResultTurn (mcpToolAnswer e) resp.function_calls]) ++ [c])).contents,
       ⟨contents ++ [toolResultTurn (mcpToolAnswer e) resp.function_calls], Temp.t1, tl⟩ ::
         (clientLoop b e tl fuel r ((contents ++ [toolResultTurn (mcpToolAnswer e) resp.function_calls]) ++ [c])).calls,
       resp.function_calls.map (fun fc => (fc.name, fc.args.getD emptyArgs)) ++
         (clientLoop b e tl fuel r ((contents ++ [toolResultTurn (mcpToolAnswer e) resp.function_calls]) ++ [c])).execs⟩ := by
  rw [clientLoop, if_neg hfc]
  split
  · rename_i m heq
    rw [hb] at heq
    cases heq
  · rename_i r2 heq
    rw [hb] at heq
    injection heq with h
    subst h
    split
    · rename_i c2 heq2
      rw [hcand] at heq2
      injection heq2 with h2
      subst h2
      rfl
    · rename_i heq2
      rw [hcand] at heq2
      cases heq2

/-- One-step unfolding of the client loop when the backend call returns a
response without candidates: nothing further is appended but the loop
continues with the new response (client.py lines 195-198). -/
theorem clientLoop_step_returns_none (b : Backend) (e : McpExec) (tl : List ToolDescriptor)
    (fuel : Nat) (resp : GenResponse) (contents : List Content)
    (hfc : resp.function_calls ≠ []) (r : GenResponse)
    (hb : b (contents ++ [toolResultTurn (mcpToolAnswer e) resp.function_calls]) Temp.t1 tl =
      GenOutcome.returns r)
    (hcand : r.candidates.head? = none) :
    clientLoop b e tl (fuel + 1) resp contents =
      ⟨(clientLoop b e tl fuel r (contents ++ [toolResultTurn (mcpToolAnswer e) resp.function_calls])).resp,
       (clientLoop b e tl fuel r (contents ++ [toolResultTurn (mcpToolAnswer e) resp.function_calls])).contents,
       ⟨contents ++ [toolResultTurn (mcpToolAnswer e) resp.function_calls], Temp.t1, tl⟩ ::
         (clientLoop b e tl fuel r (contents ++ [toolResultTurn (mcpToolAnswer e) resp.function_calls])).calls,
       resp.function_calls.map (fun fc => (fc.name, fc.args.getD emptyArgs)) ++
         (clientLoop b e tl fuel r (contents ++ [toolResultTurn (mcpToolAnswer e) resp.function_calls])).execs⟩ := by
  rw [clientLoop, if_neg hfc]
  split
  · rename_i m heq
    rw [hb] at heq
    cases heq
  · rename_i r2 heq
    rw [hb] at heq
    injection heq with h
    subst h
    split
    · rename_i c2 heq2
      rw [hcand] at heq2
      cases heq2
    · rfl

/-- One-step unfolding of the simplechat loop when the backend call of
the round-trip raises: the exception escapes the loop. -/
theorem simpleLoop_step_raises (b : Backend) (cfg : SimpleCfg) (http : Http)
    (fuel : Nat) (resp : GenResponse) (contents : List Content)
    (hfc : resp.function_calls ≠ []) (m : String)
    (hb : b (contents ++ [toolResultTurn (NewRelicGeminiAgent.simpleToolAnswer cfg http) resp.function_calls]) Temp.t1 simplechatTools =
      GenOutcome.raises m) :
    NewRelicGeminiAgent.simpleLoop b cfg http (fuel + 1) resp contents =
      ⟨Except.error m, false,
       contents ++ [toolResultTurn (NewRelicGeminiAgent.simpleToolAnswer cfg http) resp.function_calls],
       [⟨contents ++ [toolResultTurn (NewRelicGeminiAgent.simpleToolAnswer cfg http) resp.function_calls], Temp.t1, simplechatTools⟩]⟩ := by
  rw [NewRelicGeminiAgent.simpleLoop, if_neg hfc]
  split
  · rename_i m2 heq
    rw [hb] at heq
    injection heq with h
    subst h
    rfl
  · rename_i r heq
    rw [hb] at heq
    cases heq

/-- One-step unfolding of the simplechat loop when the backend call
returns a response carrying a first candidate: the candidate is appended
and the loop continues with the new response. -/
theorem simpleLoop_step_returns_some (b : Backend) (cfg : SimpleCfg) (http : Http)
    (fuel : Nat) (resp : GenResponse) (contents : List Content)
    (hfc : resp.function_calls ≠ []) (r : GenResponse) (c : Content)
    (hb : b (contents ++ [toolResultTurn (NewRelicGeminiAgent.simpleToolAnswer cfg http) resp.function_calls]) Temp.t1 simplechatTools =
      GenOutcome.returns r)
    (hcand : r.candidates.head? = some c) :
    NewRelicGeminiAgent.simpleLoop b cfg http (fuel + 1) resp contents =
      ⟨(NewRelicGeminiAgent.simpleLoop b cfg http fuel r ((contents ++ [toolResultTurn (NewRelicGeminiAgent.simpleToolAnswer cfg http) resp.function_calls]) ++ [c])).outcome,
       (NewRelicGeminiAgent.simpleLoop b cfg http fuel r ((contents ++ [toolResultTurn (NewRelicGeminiAgent.simpleToolAnswer cfg http) resp.function_calls]) ++ [c])).exhausted,
       (NewRelicGeminiAgent.simpleLoop b cfg http fuel r ((contents ++ [toolResultTurn (NewRelicGeminiAgent.simpleToolAnswer cfg http) resp.function_calls]) ++ [c])).contents,
       ⟨contents ++ [toolResultTurn (NewRelicGeminiAgent.simpleToolAnswer cfg http) resp.function_calls], Temp.t1, simplechatTools⟩ ::
         (NewRelicGeminiAgent.simpleLoop b cfg http fuel r ((contents ++ [toolResultTurn (NewRelicGeminiAgent.simpleToolAnswer cfg http) resp.function_calls]) ++ [c])).calls⟩ := by
  rw [NewRelicGeminiAgent.simpleLoop, if_neg hfc]
  split
  · rename_i m heq
    rw [hb] at heq
    cases heq
  · rename_i r2 heq
    rw [hb] at heq
    injection heq with h
    subst h
    split
    · rename_i heq2
      rw [hcand] at heq2
      cases heq2
    · rename_i c2 heq2
      rw [hcand] at heq2
      injection heq2 with h2
      subst h2
      rfl

/-- One-step unfolding of the simplechat loop when the backend call
returns a response without candidates: indexing candidates raises
IndexError, which escapes the loop. -/
theorem simpleLoop_step_returns_none (b : Backend) (cfg : SimpleCfg) (http : Http)
    (fuel : Nat) (resp : GenResponse) (contents : List Content)
    (hfc : resp.function_calls ≠ []) (r : GenResponse)
    (hb : b (contents ++ [toolResultTurn (NewRelicGeminiAgent.simpleToolAnswer cfg http) resp.function_calls]) Temp.t1 simplechatTools =
      GenOutcome.returns r)
    (hcand : r.candidates.head? = none) :
    NewRelicGeminiAgent.simpleLoop b cfg http (fuel + 1) resp contents =
      ⟨Except.error "list index out of range", false,
       contents ++ [toolResultTurn (NewRelicGeminiAgent.simpleToolAnswer cfg http) resp.function_calls],
       [⟨contents ++ [toolResultTurn (NewRelicGeminiAgent.simpleToolAnswer cfg http) resp.function_calls], Temp.t1, simplechatTools⟩]⟩ := by
  rw [NewRelicGeminiAgent.simpleLoop, if_neg hfc]
  split
  · rename_i m heq
    rw [hb] at heq
    cases heq
  · rename_i r2 heq
    rw [hb] at heq
    injection heq with h
    subst h
    split
    · rfl
    · rename_i c2 heq2
      rw [hcand] at heq2
      cases heq2

/-- The client tool-call loop only ever appends to the conversation. -/
theorem clientLoop_contents_extend (b : Backend) (e : McpExec) (tl : List ToolDescriptor) :
    ∀ (fuel : Nat) (resp : GenResponse) (contents : List Content),
      ∃ d, (clientLoop b e tl fuel resp contents).contents = contents ++ d := by
  intro fuel
  induction fuel with
  | zero => intro resp contents; exact ⟨[], by simp [clientLoop]⟩
  | succ n ih =>
    intro resp contents
    by_cases hfc : resp.function_calls = []
    · exact ⟨[], by simp [clientLoop, hfc]⟩
    · rcases hbo : b (contents ++ [toolResultTurn (mcpToolAnswer e) resp.function_calls]) Temp.t1 tl with m | r
      · obtain ⟨d, hd⟩ := ih resp (contents ++ [toolResultTurn (mcpToolAnswer e) resp.function_calls])
        refine ⟨[toolResultTurn (mcpToolAnswer e) resp.function_calls] ++ d, ?_⟩
        rw [clientLoop_step_raises b e tl n resp contents hfc m hbo, hd]
        simp [List.append_assoc]
      · rcases hcand : r.candidates.head? with _ | c
        · obtain ⟨d, hd⟩ := ih r (contents ++ [toolResultTurn (mcpToolAnswer e) resp.function_calls])
          refine ⟨[toolResultTurn (mcpToolAnswer e) resp.function_calls] ++ d, ?_⟩
          rw [clientLoop_step_returns_none b e tl n resp contents hfc r hbo hcand, hd]
          simp [List.append_assoc]
        · obtain ⟨d, hd⟩ := ih r ((contents ++ [toolResultTurn (mcpToolAnswer e) resp.function_calls]) ++ [c])
          refine ⟨[toolResultTurn (mcpToolAnswer e) resp.function_calls] ++ ([c] ++ d), ?_⟩
          rw [clientLoop_step_returns_some b e tl n resp contents hfc r c hbo hcand, hd]
          simp [List.append_assoc]

/-- The simplechat tool-call loop only ever appends to the conversation. -/
theorem simpleLoop_contents_extend (b : Backend) (cfg : SimpleCfg) (http : Http) :
    ∀ (fuel : Nat) (resp : GenResponse) (contents : List Content),
      ∃ d, (NewRelicGeminiAgent.simpleLoop b cfg http fuel resp contents).contents = contents ++ d := by
  intro fuel
  induction fuel with
  | zero => intro resp contents; exact ⟨[], by simp [NewRelicGeminiAgent.simpleLoop]⟩
  | succ n ih =>
    intro resp contents
    by_cases hfc : resp.function_calls = []
    · exact ⟨[], by simp [NewRelicGeminiAgent.simpleLoop, hfc]⟩
    · rcases hbo : b (contents ++ [toolResultTurn (NewRelicGeminiAgent.simpleToolAnswer cfg http) resp.function_calls]) Temp.t1 simplechatTools with m | r
      · refine ⟨[toolResultTurn (NewRelicGeminiAgent.simpleToolAnswer cfg http) resp.function_calls], ?_⟩
        rw [simpleLoop_step_raises b cfg http n resp contents hfc m hbo]
      · rcases hcand : r.candidates.head? with _ | c
        · refine ⟨[toolResultTurn (NewRelicGeminiAgent.simpleToolAnswer cfg http) resp.function_calls], ?_⟩
          rw [simpleLoop_step_returns_none b cfg http n resp contents hfc r hbo hcand]
        · obtain ⟨d, hd⟩ := ih r ((contents ++ [toolResultTurn (NewRelicGeminiAgent.simpleToolAnswer cfg http) resp.function_calls]) ++ [c])
          refine ⟨[toolResultTurn (NewRelicGeminiAgent.simpleToolAnswer cfg http) resp.function_calls] ++ ([c] ++ d), ?_⟩
          rw [simpleLoop_step_returns_some b cfg http n resp contents hfc r c hbo hcand, hd]
          simp [List.append_assoc]

/-- Against an always-tool-requesting backend, the client loop consumes
all its fuel, makes one backend call per round-trip, and exits holding
the response returned by the last backend call. -/
theorem clientLoop_alwaysTool (b : Backend) (e : McpExec) (tl : List ToolDescriptor)
    (hb : AlwaysToolBackend b) :
    ∀ (fuel : Nat) (resp : GenResponse) (contents : List Content),
      resp.function_calls ≠ [] →
      (clientLoop b e tl fuel resp contents).calls.length = fuel ∧
      (fuel = 0 → (clientLoop b e tl fuel resp contents).resp = resp) ∧
      (∀ k, fuel = k + 1 →
        ∃ cl r, lastCall (clientLoop b e tl fuel resp contents).calls = some cl ∧
          b cl.snapshot Temp.t1 tl = GenOutcome.returns r ∧
          (clientLoop b e tl fuel resp contents).resp = r) := by
  intro fuel
  induction fuel with
  | zero =>
    intro resp contents hfc
    exact ⟨by simp [clientLoop], fun _ => by simp [clientLoop],
      fun k hk => absurd hk (by omega)⟩
  | succ n ih =>
    intro resp contents hfc
    obtain ⟨r, c, t, hbeq, hrfc, hcand, hct, hrt⟩ :=
      hb (contents ++ [toolResultTurn (mcpToolAnswer e) resp.function_calls]) Temp.t1 tl
    rw [clientLoop_step_returns_some b e tl n resp contents hfc r c hbeq hcand]
    cases n with
    | zero =>
      refine ⟨by simp [clientLoop], fun h => absurd h (by omega), fun k hk => ?_⟩
      exact ⟨⟨contents ++ [toolResultTurn (mcpToolAnswer e) resp.function_calls], Temp.t1, tl⟩, r,
        by simp [clientLoop, lastCall], hbeq, by simp [clientLoop]⟩
    | succ m =>
      obtain ⟨hlen, hres0, hlast⟩ :=
        ih r ((contents ++ [toolResultTurn (mcpToolAnswer e) resp.function_calls]) ++ [c]) hrfc
      obtain ⟨cl, r2, hcl, hbeq2, hresp2⟩ := hlast m rfl
      have hne : (clientLoop b e tl (m + 1) r
          ((contents ++ [toolResultTurn (mcpToolAnswer e) resp.function_calls]) ++ [c])).calls ≠ [] := by
        intro hnil
        rw [hnil] at hlen
        simp at hlen
      refine ⟨by simp only [List.length_cons, hlen], fun h => absurd h (by omega), fun k hk => ?_⟩
      refine ⟨cl, r2, ?_, hbeq2, hresp2⟩
      show lastCall (⟨contents ++ [toolResultTurn (mcpToolAnswer e) resp.function_calls], Temp.t1, tl⟩ ::
        (clientLoop b e tl (m + 1) r ((contents ++ [toolResultTurn (mcpToolAnswer e) resp.function_calls]) ++ [c])).calls) = some cl
      rw [lastCall_cons _ _ hne]
      exact hcl

/-- Against an always-tool-requesting backend, the simplechat loop
consumes all its fuel, makes one backend call per round-trip, reports the
cap as consumed, and exits holding the response of the last backend
call. -/
theorem simpleLoop_alwaysTool (b : Backend) (cfg : SimpleCfg) (http : Http)
    (hb : AlwaysToolBackend b) :
    ∀ (fuel : Nat) (resp : GenResponse) (contents : List Content),
      resp.function_calls ≠ [] →
      (NewRelicGeminiAgent.simpleLoop b cfg http fuel resp contents).calls.length = fuel ∧
      (NewRelicGeminiAgent.simpleLoop b cfg http fuel resp contents).exhausted = true ∧
      (fuel = 0 →
        (NewRelicGeminiAgent.simpleLoop b cfg http fuel resp contents).outcome = Except.ok resp) ∧
      (∀ k, fuel = k + 1 →
        ∃ cl r, lastCall (NewRelicGeminiAgent.simpleLoop b cfg http fuel resp contents).calls = some cl ∧
          b cl.snapshot Temp.t1 simplechatTools = GenOutcome.returns r ∧
          (NewRelicGeminiAgent.simpleLoop b cfg http fuel resp contents).outcome = Except.ok r) := by
  intro fuel
  induction fuel with
  | zero =>
    intro resp contents hfc
    exact ⟨by simp [NewRelicGeminiAgent.simpleLoop], by simp [NewRelicGeminiAgent.simpleLoop],
      fun _ => by simp [NewRelicGeminiAgent.simpleLoop], fun k hk => absurd hk (by omega)⟩
  | succ n ih =>
    intro resp contents hfc
    obtain ⟨r, c, t, hbeq, hrfc, hcand, hct, hrt⟩ :=
      hb (contents ++ [toolResultTurn (NewRelicGeminiAgent.simpleToolAnswer cfg http) resp.function_calls])
        Temp.t1 simplechatTools
    rw [simpleLoop_step_returns_some b cfg http n resp contents hfc r c hbeq hcand]
    cases n with
    | zero =>
      refine ⟨by simp [NewRelicGeminiAgent.simpleLoop, NewRelicGeminiAgent.consCallS],
        by simp [NewRelicGeminiAgent.simpleLoop, NewRelicGeminiAgent.consCallS],
        fun h => absurd h (by omega), fun k hk => ?_⟩
      refine ⟨⟨contents ++ [toolResultTurn (NewRelicGeminiAgent.simpleToolAnswer cfg http) resp.function_calls], Temp.t1, simplechatTools⟩, r,
        ?_, hbeq, ?_⟩
      · simp [NewRelicGeminiAgent.simpleLoop, NewRelicGeminiAgent.consCallS, lastCall]
      · simp [NewRelicGeminiAgent.simpleLoop, NewRelicGeminiAgent.consCallS]
    | succ m =>
      obtain ⟨hlen, hexh, hout0, hlast⟩ :=
        ih r ((contents ++ [toolResultTurn (NewRelicGeminiAgent.simpleToolAnswer cfg http) resp.function_calls]) ++ [c]) hrfc
      obtain ⟨cl, r2, hcl, hbeq2, hout2⟩ := hlast m rfl
      have hne : (NewRelicGeminiAgent.simpleLoop b cfg http (m + 1) r
          ((contents ++ [toolResultTurn (NewRelicGeminiAgent.simpleToolAnswer cfg http) resp.function_calls]) ++ [c])).calls ≠ [] := by
        intro hnil
        rw [hnil] at hlen
        simp at hlen
      refine ⟨by simp only [NewRelicGeminiAgent.consCallS, List.length_cons, hlen],
        by simp only [NewRelicGeminiAgent.consCallS, hexh],
        fun h => absurd h (by omega), fun k hk => ?_⟩
      refine ⟨cl, r2, ?_, hbeq2, ?_⟩
      · show lastCall (⟨contents ++ [toolResultTurn (NewRelicGeminiAgent.simpleToolAnswer cfg http) resp.function_calls], Temp.t1, simplechatTools⟩ ::
          (NewRelicGeminiAgent.simpleLoop b cfg http (m + 1) r ((contents ++ [toolResultTurn (NewRelicGeminiAgent.simpleToolAnswer cfg http) resp.function_calls]) ++ [c])).calls) = some cl
        rw [lastCall_cons _ _ hne]
        exact hcl
      · exact hout2

/-- Helper: finishRun always keeps the loop contents. -/
theorem finishRun_contents (first : BackendCall) (out : NewRelicGeminiAgent.SimpleLoopOut) :
    (NewRelicGeminiAgent.finishRun first out).contents = out.contents := by
  unfold NewRelicGeminiAgent.finishRun
  split
  · rfl
  · split
    · split <;> rfl
    · split <;> rfl

/-- Helper: finishRun records the initial call before the loop calls. -/
theorem finishRun_calls (first : BackendCall) (out : NewRelicGeminiAgent.SimpleLoopOut) :
    (NewRelicGeminiAgent.finishRun first out).calls = first :: out.calls := by
  unfold NewRelicGeminiAgent.finishRun
  split
  · rfl
  · split
    · split <;> rfl
    · split <;> rfl

/-- Helper: finishRun always produces an ok result. -/
theorem finishRun_ok (first : BackendCall) (out : NewRelicGeminiAgent.SimpleLoopOut) :
    ∃ s, (NewRelicGeminiAgent.finishRun first out).result = Except.ok s := by
  unfold NewRelicGeminiAgent.finishRun
  split
  · exact ⟨_, rfl⟩
  · split
    · split
      · exact ⟨_, rfl⟩
      · exact ⟨_, rfl⟩
    · split
      · exact ⟨_, rfl⟩
      · exact ⟨_, rfl⟩

/-- Helper: finishRun converts a loop-escaping exception into the outer
error string. -/
theorem finishRun_error (first : BackendCall) (out : NewRelicGeminiAgent.SimpleLoopOut)
    (m : String) (h : out.outcome = Except.error m) :
    (NewRelicGeminiAgent.finishRun first out).result =
      Except.ok ("Error processing request: " ++ m) := by
  unfold NewRelicGeminiAgent.finishRun
  rw [h]

/-- Helper: finishRun builds the truncation string when the cap was
consumed with tools still requested and the text accessor succeeds. -/
theorem finishRun_truncation (first : BackendCall) (out : NewRelicGeminiAgent.SimpleLoopOut)
    (r : GenResponse) (t : String) (h : out.outcome = Except.ok r)
    (hex : out.exhausted = true) (hfc : r.function_calls ≠ []) (ht : r.text = Except.ok t) :
    (NewRelicGeminiAgent.finishRun first out).result =
      Except.ok ("Response exceeded maximum of 5 tool calls. Partial response: " ++ t) := by
  unfold NewRelicGeminiAgent.finishRun
  rw [h, hex]
  simp [hfc, ht]

/-- Helper: the always-tool witness backend satisfies AlwaysToolBackend. -/
theorem alwaysTool_cexBackendAlways : AlwaysToolBackend cexBackendAlways := by
  intro cs temp tl
  refine ⟨alwaysToolResp cs.length, modelTurn ("m" ++ toString cs.length),
    "m" ++ toString cs.length, rfl, ?_, rfl, rfl, rfl⟩
  simp [alwaysToolResp]

/-- C10: for every direct GraphQL execution by the HTTP executor, a
missing variables argument is treated as the empty mapping; when the
mapping lacks the accountId key and the configured account id is set,
accountId is added before the request; a mapping already containing
accountId is sent unchanged; and the issued HTTP request carries exactly
the prepared mapping. -/
theorem c10_account_id_injection :
    (∀ (a : Option String), NewRelicGeminiAgent.prepareVariables a none =
      NewRelicGeminiAgent.prepareVariables a (some [])) ∧
    (∀ (a : Option String) (v : List (String × String)), hasKey "accountId" v = true →
      NewRelicGeminiAgent.prepareVariables a (some v) = v) ∧
    (∀ (s : String) (v : List (String × String)), hasKey "accountId" v = false → s ≠ "" →
      NewRelicGeminiAgent.prepareVariables (some s) (some v) = v ++ [("accountId", s)]) ∧
    (∀ (a : Option String) (v : List (String × String)), pyTruthyStr a = false →
      NewRelicGeminiAgent.prepareVariables a (some v) = v) ∧
    (∀ (cfg : SimpleCfg) (http : Http) (q : String) (vars : Option (List (String × String))),
      (NewRelicGeminiAgent.executeGraphql cfg http q vars).requests =
        [⟨cfg.endpoint, cfg.apiKey, q, NewRelicGeminiAgent.prepareVariables cfg.accountId vars, 30⟩]) := by
  refine ⟨fun a => rfl, ?_, ?_, ?_, ?_⟩
  · intro a v h
    simp [NewRelicGeminiAgent.prepareVariables, h]
  · intro s v h hs
    simp [NewRelicGeminiAgent.prepareVariables, h, pyTruthyStr, hs]
  · intro a v h
    simp [NewRelicGeminiAgent.prepareVariables, h]
  · intro cfg http q vars
    rcases hh : http ⟨cfg.endpoint, cfg.apiKey, q, NewRelicGeminiAgent.prepareVariables cfg.accountId vars, 30⟩ with m | ⟨status, json, text⟩
    · simp [NewRelicGeminiAgent.executeGraphql, hh]
    · by_cases hs : status = 200
      · subst hs
        rcases json with _ | j
        · simp [NewRelicGeminiAgent.executeGraphql, hh]
        · simp [NewRelicGeminiAgent.executeGraphql, hh]
      · rcases json with _ | j
        · simp [NewRelicGeminiAgent.executeGraphql, hh, hs]
        · rcases herr : j.errors with _ | errs
          · simp [NewRelicGeminiAgent.executeGraphql, hh, hs, herr]
          · simp [NewRelicGeminiAgent.executeGraphql, hh, hs, herr]

/-- C10 witness: the theorem applied at concrete inputs. -/
theorem c10_account_id_injection_witness :
    NewRelicGeminiAgent.prepareVariables (some "42") (some [("q", "1")]) =
      [("q", "1"), ("accountId", "42")] ∧
    NewRelicGeminiAgent.prepareVariables (some "42") (some [("accountId", "7")]) =
      [("accountId", "7")] :=
  ⟨c10_account_id_injection.2.2.1 "42" [("q", "1")] (by decide) (by decide),
   c10_account_id_injection.2.1 (some "42") [("accountId", "7")] (by decide)⟩

/-- C7: every model reply with at least one invocation is answered by one
single tool-result turn whose parts are the answers of the invocations in
invocation order (one part per invocation), and in both loops that turn
is the only turn appended between executing the tools and the next
backend call, whose snapshot ends with it. -/
theorem c7_tool_results_single_turn :
    (∀ (answer : FunctionCall → Part) (fcs : List FunctionCall),
      (toolResultTurn answer fcs).role = "user" ∧
      (toolResultTurn answer fcs).parts = fcs.map answer ∧
      (toolResultTurn answer fcs).parts.length = fcs.length) ∧
    (∀ (b : Backend) (e : McpExec) (tl : List ToolDescriptor) (fuel : Nat)
       (resp : GenResponse) (contents : List Content), resp.function_calls ≠ [] →
       (clientLoop b e tl (fuel + 1) resp contents).calls.head? =
         some ⟨contents ++ [toolResultTurn (mcpToolAnswer e) resp.function_calls], Temp.t1, tl⟩) ∧
    (∀ (b : Backend) (cfg : SimpleCfg) (http : Http) (fuel : Nat)
       (resp : GenResponse) (contents : List Content), resp.function_calls ≠ [] →
       (NewRelicGeminiAgent.simpleLoop b cfg http (fuel + 1) resp contents).calls.head? =
         some ⟨contents ++ [toolResultTurn (NewRelicGeminiAgent.simpleToolAnswer cfg http) resp.function_calls],
           Temp.t1, simplechatTools⟩) := by
  refine ⟨fun answer fcs => ⟨rfl, rfl, by simp [toolResultTurn]⟩, ?_, ?_⟩
  · intro b e tl fuel resp contents hfc
    rw [clientLoop, if_neg hfc]
    split
    · simp [consCallC]
    · split
      · simp [consCallC]
      · simp [consCallC]
  · intro b cfg http fuel resp contents hfc
    rw [NewRelicGeminiAgent.simpleLoop, if_neg hfc]
    split
    · simp
    · split
      · simp
      · simp [NewRelicGeminiAgent.consCallS]

/-- C7 witness: the theorem applied at concrete inputs. -/
theorem c7_tool_results_single_turn_witness :
    (toolResultTurn (mcpToolAnswer cexExecOk) cexFcs).parts = cexFcs.map (mcpToolAnswer cexExecOk) ∧
    (clientLoop cexBackendNoTools cexExecOk cexTools 1 oneToolResp []).calls.head? =
      some ⟨[] ++ [toolResultTurn (mcpToolAnswer cexExecOk) oneToolResp.function_calls], Temp.t1, cexTools⟩ ∧
    (NewRelicGeminiAgent.simpleLoop cexBackendNoTools cexCfg cexHttpOk 1 oneToolResp []).calls.head? =
      some ⟨[] ++ [toolResultTurn (NewRelicGeminiAgent.simpleToolAnswer cexCfg cexHttpOk) oneToolResp.function_calls],
        Temp.t1, simplechatTools⟩ :=
  ⟨(c7_tool_results_single_turn.1 (mcpToolAnswer cexExecOk) cexFcs).2.1,
   c7_tool_results_single_turn.2.1 cexBackendNoTools cexExecOk cexTools 0 oneToolResp [] (by decide),
   c7_tool_results_single_turn.2.2 cexBackendNoTools cexCfg cexHttpOk 0 oneToolResp [] (by decide)⟩

/-- Helper: client agent_loop when the initial backend call raises. -/
theorem mcp_agent_loop_raises (b : Backend) (e : McpExec) (tl : List ToolDescriptor)
    (init : List Content) (p m : String)
    (hbo : b (init ++ [userTextTurn p]) Temp.t0 tl = GenOutcome.raises m) :
    MCPGeminiAgent.agent_loop b e (.ok tl) true init p =
      ⟨.ok ("Error calling Gemini API: " ++ m), init ++ [userTextTurn p],
       [⟨init ++ [userTextTurn p], Temp.t0, tl⟩], []⟩ := by
  simp [MCPGeminiAgent.agent_loop, hbo]

/-- Helper: client agent_loop when the initial reply has no candidates. -/
theorem mcp_agent_loop_nocand (b : Backend) (e : McpExec) (tl : List ToolDescriptor)
    (init : List Content) (p : String) (resp : GenResponse)
    (hbo : b (init ++ [userTextTurn p]) Temp.t0 tl = GenOutcome.returns resp)
    (hcand : resp.candidates.head? = none) :
    MCPGeminiAgent.agent_loop b e (.ok tl) true init p =
      ⟨.ok "Error calling Gemini API: Gemini response missing expected \x27candidates\x27 attribute",
       init ++ [userTextTurn p], [⟨init ++ [userTextTurn p], Temp.t0, tl⟩], []⟩ := by
  simp [MCPGeminiAgent.agent_loop, hbo, hcand]

/-- Helper: client agent_loop on the main path. -/
theorem mcp_agent_loop_main (b : Backend) (e : McpExec) (tl : List ToolDescriptor)
    (init : List Content) (p : String) (resp : GenResponse) (c : Content)
    (hbo : b (init ++ [userTextTurn p]) Temp.t0 tl = GenOutcome.returns resp)
    (hcand : resp.candidates.head? = some c) :
    MCPGeminiAgent.agent_loop b e (.ok tl) true init p =
      ⟨.ok (clientFinalText (clientLoop b e tl 5 resp ((init ++ [userTextTurn p]) ++ [c])).resp),
       (clientLoop b e tl 5 resp ((init ++ [userTextTurn p]) ++ [c])).contents,
       ⟨init ++ [userTextTurn p], Temp.t0, tl⟩ ::
         (clientLoop b e tl 5 resp ((init ++ [userTextTurn p]) ++ [c])).calls,
       (clientLoop b e tl 5 resp ((init ++ [userTextTurn p]) ++ [c])).execs⟩ := by
  simp [MCPGeminiAgent.agent_loop, hbo, hcand]

/-- Helper: simplechat agent_loop when the initial backend call raises. -/
theorem simple_agent_loop_raises (b : Backend) (cfg : SimpleCfg) (http : Http)
    (init : List Content) (p m : String)
    (hbo : b (init ++ [userTextTurn p]) Temp.t0 simplechatTools = GenOutcome.raises m) :
    NewRelicGeminiAgent.agent_loop b cfg http init p =
      ⟨.ok ("Error processing request: " ++ m), init ++ [userTextTurn p],
       [⟨init ++ [userTextTurn p], Temp.t0, simplechatTools⟩]⟩ := by
  simp [NewRelicGeminiAgent.agent_loop, hbo]

/-- Helper: simplechat agent_loop when the initial reply has no
candidates. -/
theorem simple_agent_loop_nocand (b : Backend) (cfg : SimpleCfg) (http : Http)
    (init : List Content) (p : String) (resp : GenResponse)
    (hbo : b (init ++ [userTextTurn p]) Temp.t0 simplechatTools = GenOutcome.returns resp)
    (hcand : resp.candidates.head? = none) :
    NewRelicGeminiAgent.agent_loop b cfg http init p =
      ⟨.ok "Error processing request: list index out of range", init ++ [userTextTurn p],
       [⟨init ++ [userTextTurn p], Temp.t0, simplechatTools⟩]⟩ := by
  simp [NewRelicGeminiAgent.agent_loop, hbo, hcand]

/-- Helper: simplechat agent_loop on the main path. -/
theorem simple_agent_loop_main (b : Backend) (cfg : SimpleCfg) (http : Http)
    (init : List Content) (p : String) (resp : GenResponse) (c : Content)
    (hbo : b (init ++ [userTextTurn p]) Temp.t0 simplechatTools = GenOutcome.returns resp)
    (hcand : resp.candidates.head? = some c) :
    NewRelicGeminiAgent.agent_loop b cfg http init p =
      NewRelicGeminiAgent.finishRun ⟨init ++ [userTextTurn p], Temp.t0, simplechatTools⟩
        (NewRelicGeminiAgent.simpleLoop b cfg http 5 resp ((init ++ [userTextTurn p]) ++ [c])) := by
  simp [NewRelicGeminiAgent.agent_loop, hbo, hcand]

/-- C6: in both variants, the first model backend call of a user turn
(the head of the call trace) is made with temperature 0, and every
subsequent backend call within the same turn (the tail of the call
trace) is made with temperature 1.0. -/
theorem c6_temperature_policy :
    (∀ (b : Backend) (e : McpExec) (ltr : Except String (List ToolDescriptor))
       (hak : Bool) (init : List Content) (p : String),
      (∀ c, (MCPGeminiAgent.agent_loop b e ltr hak init p).calls.head? = some c →
        c.temp = Temp.t0) ∧
      (∀ c, c ∈ (MCPGeminiAgent.agent_loop b e ltr hak init p).calls.tail →
        c.temp = Temp.t1)) ∧
    (∀ (b : Backend) (cfg : SimpleCfg) (http : Http) (init : List Content) (p : String),
      (∀ c, (NewRelicGeminiAgent.agent_loop b cfg http init p).calls.head? = some c →
        c.temp = Temp.t0) ∧
      (∀ c, c ∈ (NewRelicGeminiAgent.agent_loop b cfg http init p).calls.tail →
        c.temp = Temp.t1)) := by
  constructor
  · intro b e ltr hak init p
    rcases ltr with m | tl
    · exact ⟨fun c hc => by simp [MCPGeminiAgent.agent_loop] at hc,
        fun c hc => by simp [MCPGeminiAgent.agent_loop] at hc⟩
    · cases hak with
      | false =>
        exact ⟨fun c hc => by simp [MCPGeminiAgent.agent_loop] at hc,
          fun c hc => by simp [MCPGeminiAgent.agent_loop] at hc⟩
      | true =>
        rcases hbo : b (init ++ [userTextTurn p]) Temp.t0 tl with m | resp
        · rw [mcp_agent_loop_raises b e tl init p m hbo]
          exact ⟨fun c hc => by simp at hc; rw [← hc], fun c hc => by simp at hc⟩
        · rcases hcand : resp.candidates.head? with _ | c0
          · rw [mcp_agent_loop_nocand b e tl init p resp hbo hcand]
            exact ⟨fun c hc => by simp at hc; rw [← hc], fun c hc => by simp at hc⟩
          · rw [mcp_agent_loop_main b e tl init p resp c0 hbo hcand]
            refine ⟨fun c hc => ?_, fun c hc => ?_⟩
            · simp at hc
              rw [← hc]
            · simp only [List.tail_cons] at hc
              exact (clientLoop_calls_fields b e tl 5 resp
                ((init ++ [userTextTurn p]) ++ [c0]) c hc).1
  · intro b cfg http init p
    rcases hbo : b (init ++ [userTextTurn p]) Temp.t0 simplechatTools with m | resp
    · rw [simple_agent_loop_raises b cfg http init p m hbo]
      exact ⟨fun c hc => by simp at hc; rw [← hc], fun c hc => by simp at hc⟩
    · rcases hcand : resp.candidates.head? with _ | c0
      · rw [simple_agent_loop_nocand b cfg http init p resp hbo hcand]
        exact ⟨fun c hc => by simp at hc; rw [← hc], fun c hc => by simp at hc⟩
      · rw [simple_agent_loop_main b cfg http init p resp c0 hbo hcand]
        refine ⟨fun c hc => ?_, fun c hc => ?_⟩
        · rw [finishRun_calls] at hc
          simp at hc
          rw [← hc]
        · rw [finishRun_calls] at hc
          simp only [List.tail_cons] at hc
          exact (simpleLoop_calls_fields b cfg http 5 resp
            ((init ++ [userTextTurn p]) ++ [c0]) c hc).1

/-- C6 witness: the theorem applied to the always-tool fixture run. -/
theorem c6_temperature_policy_witness :
    (⟨[userTextTurn "hi"], Temp.t0, simplechatTools⟩ : BackendCall).temp = Temp.t0 ∧
    cexSecondCall.temp = Temp.t1 :=
  ⟨(c6_temperature_policy.2 cexBackendAlways cexCfg cexHttpOk [] "hi").1
      ⟨[userTextTurn "hi"], Temp.t0, simplechatTools⟩ rfl,
   (c6_temperature_policy.2 cexBackendAlways cexCfg cexHttpOk [] "hi").2
      cexSecondCall (by decide)⟩

/-- C2 amended: respond() (agent_loop) performs no empty-input
validation in either variant: every input, including the empty and the
whitespace-only string, is appended to the Conversation Store as a user
turn and the turn proceeds like any other; no EmptyInputError exists and
the store is always mutated. -/
theorem c2_amended_no_input_validation :
    (∀ (b : Backend) (e : McpExec) (ltr : Except String (List ToolDescriptor))
       (hak : Bool) (init : List Content) (p : String),
       ∃ d, (MCPGeminiAgent.agent_loop b e ltr hak init p).contents =
         (init ++ [userTextTurn p]) ++ d) ∧
    (∀ (b : Backend) (cfg : SimpleCfg) (http : Http) (init : List Content) (p : String),
       ∃ d, (NewRelicGeminiAgent.agent_loop b cfg http init p).contents =
         (init ++ [userTextTurn p]) ++ d) := by
  constructor
  · intro b e ltr hak init p
    rcases ltr with m | tl
    · exact ⟨[], by simp [MCPGeminiAgent.agent_loop]⟩
    · cases hak with
      | false => exact ⟨[], by simp [MCPGeminiAgent.agent_loop]⟩
      | true =>
        rcases hbo : b (init ++ [userTextTurn p]) Temp.t0 tl with m | resp
        · exact ⟨[], by rw [mcp_agent_loop_raises b e tl init p m hbo]; simp⟩
        · rcases hcand : resp.candidates.head? with _ | c0
          · exact ⟨[], by rw [mcp_agent_loop_nocand b e tl init p resp hbo hcand]; simp⟩
          · obtain ⟨d, hd⟩ :=
              clientLoop_contents_extend b e tl 5 resp ((init ++ [userTextTurn p]) ++ [c0])
            refine ⟨[c0] ++ d, ?_⟩
            rw [mcp_agent_loop_main b e tl init p resp c0 hbo hcand]
            show (clientLoop b e tl 5 resp ((init ++ [userTextTurn p]) ++ [c0])).contents =
              (init ++ [userTextTurn p]) ++ ([c0] ++ d)
            rw [hd, List.append_assoc]
  · intro b cfg http init p
    rcases hbo : b (init ++ [userTextTurn p]) Temp.t0 simplechatTools with m | resp
    · exact ⟨[], by rw [simple_agent_loop_raises b cfg http init p m hbo]; simp⟩
    · rcases hcand : resp.candidates.head? with _ | c0
      · exact ⟨[], by rw [simple_agent_loop_nocand b cfg http init p resp hbo hcand]; simp⟩
      · obtain ⟨d, hd⟩ := simpleLoop_contents_extend b cfg http 5 resp
          ((init ++ [userTextTurn p]) ++ [c0])
        refine ⟨[c0] ++ d, ?_⟩
        rw [simple_agent_loop_main b cfg http init p resp c0 hbo hcand, finishRun_contents]
        rw [hd, List.append_assoc]

/-- C2 counterexample: respond on the empty prompt is not rejected and
does not leave the Conversation Store unchanged: the empty user turn is
appended, the turn runs to completion and returns a normal answer. -/
theorem c2_counterexample :
    (NewRelicGeminiAgent.agent_loop cexBackendNoTools cexCfg cexHttpOk [] "").result =
      Except.ok "ok" ∧
    (NewRelicGeminiAgent.agent_loop cexBackendNoTools cexCfg cexHttpOk [] "").contents =
      [userTextTurn "", modelTurn "ok"] := by
  exact ⟨rfl, rfl⟩

/-- C3 amended: respond() always returns a string for a connected
conversation — the client variant whenever the tool listing succeeds,
the simplechat variant unconditionally — and on final-answer extraction
failure the client variant returns one of two fixed apology strings,
while the simplechat variant returns an error string that carries the
failure detail and is therefore not fixed. -/
theorem c3_amended_total_contract :
    (∀ (b : Backend) (e : McpExec) (tl : List ToolDescriptor) (hak : Bool)
       (init : List Content) (p : String),
       ∃ s, (MCPGeminiAgent.agent_loop b e (.ok tl) hak init p).result = Except.ok s) ∧
    (∀ (b : Backend) (cfg : SimpleCfg) (http : Http) (init : List Content) (p : String),
       ∃ s, (NewRelicGeminiAgent.agent_loop b cfg http init p).result = Except.ok s) ∧
    (∀ (r : GenResponse), r.candidates.head? = none →
       clientFinalText r = "I received an incomplete response. Please try again.") ∧
    (∀ (r : GenResponse) (c : Content), r.candidates.head? = some c → c.textAttr = none →
       clientFinalText r = "I encountered an error processing the response. Please try again.") ∧
    (∀ (m : String),
       (NewRelicGeminiAgent.agent_loop (cexBackendBrokenText m) cexCfg cexHttpOk [] "q").result =
         Except.ok ("Error processing request: " ++ m)) := by
  refine ⟨?_, ?_, ?_, ?_, fun m => rfl⟩
  · intro b e tl hak init p
    cases hak with
    | false => exact ⟨_, rfl⟩
    | true =>
      rcases hbo : b (init ++ [userTextTurn p]) Temp.t0 tl with m | resp
      · exact ⟨_, by rw [mcp_agent_loop_raises b e tl init p m hbo]⟩
      · rcases hcand : resp.candidates.head? with _ | c0
        · exact ⟨_, by rw [mcp_agent_loop_nocand b e tl init p resp hbo hcand]⟩
        · exact ⟨_, by rw [mcp_agent_loop_main b e tl init p resp c0 hbo hcand]⟩
  · intro b cfg http init p
    rcases hbo : b (init ++ [userTextTurn p]) Temp.t0 simplechatTools with m | resp
    · exact ⟨_, by rw [simple_agent_loop_raises b cfg http init p m hbo]⟩
    · rcases hcand : resp.candidates.head? with _ | c0
      · exact ⟨_, by rw [simple_agent_loop_nocand b cfg http init p resp hbo hcand]⟩
      · obtain ⟨s, hs⟩ := finishRun_ok ⟨init ++ [userTextTurn p], Temp.t0, simplechatTools⟩
          (NewRelicGeminiAgent.simpleLoop b cfg http 5 resp ((init ++ [userTextTurn p]) ++ [c0]))
        exact ⟨s, by rw [simple_agent_loop_main b cfg http init p resp c0 hbo hcand]; exact hs⟩
  · intro r h
    simp [clientFinalText, h]
  · intro r c h1 h2
    simp [clientFinalText, h1, h2]

/-- C3 witness: the theorem applied at concrete inputs. -/
theorem c3_amended_total_contract_witness :
    clientFinalText ⟨[], [], Except.error "x"⟩ =
      "I received an incomplete response. Please try again." ∧
    clientFinalText ⟨[⟨"model", [], none⟩], [], Except.error "x"⟩ =
      "I encountered an error processing the response. Please try again." ∧
    (NewRelicGeminiAgent.agent_loop (cexBackendBrokenText "boom") cexCfg cexHttpOk [] "q").result =
      Except.ok "Error processing request: boom" :=
  ⟨c3_amended_total_contract.2.2.1 ⟨[], [], Except.error "x"⟩ rfl,
   c3_amended_total_contract.2.2.2.1 ⟨[⟨"model", [], none⟩], [], Except.error "x"⟩
     ⟨"model", [], none⟩ rfl rfl,
   c3_amended_total_contract.2.2.2.2 "boom"⟩

/-- C3 counterexample: two runs whose final-answer extraction fails with
different exception details return different strings, so the extraction
failure result of the simplechat variant is not a fixed apology string. -/
theorem c3_counterexample :
    (NewRelicGeminiAgent.agent_loop (cexBackendBrokenText "kaboom1") cexCfg cexHttpOk [] "q").result =
      Except.ok "Error processing request: kaboom1" ∧
    (NewRelicGeminiAgent.agent_loop (cexBackendBrokenText "kaboom2") cexCfg cexHttpOk [] "q").result =
      Except.ok "Error processing request: kaboom2" ∧
    (NewRelicGeminiAgent.agent_loop (cexBackendBrokenText "kaboom1") cexCfg cexHttpOk [] "q").result ≠
      (NewRelicGeminiAgent.agent_loop (cexBackendBrokenText "kaboom2") cexCfg cexHttpOk [] "q").result := by
  refine ⟨rfl, rfl, by decide⟩

/-- C5 amended: a tool invocation whose execution fails never raises out
of the loop: an executor-reported application error yields an error
payload carrying the reported text verbatim, and an executor/transport
failure yields an error payload of the form Tool execution failed:
exception type: cause (the words execution failed: appear inside it, but
prefixed by Tool); and in both loops the turn holding these payloads is
appended so that the next backend call receives it at the end of its
snapshot. -/
theorem c5_amended_tool_failure :
    (∀ (e : McpExec) (fc : FunctionCall) (t : String) (rest : List String),
      e fc.name (fc.args.getD emptyArgs) = ToolCallOutcome.returns true (t :: rest) →
      mcpToolAnswer e fc = Part.functionResponse fc.name (ToolPayload.error t)) ∧
    (∀ (e : McpExec) (fc : FunctionCall) (tn m : String),
      e fc.name (fc.args.getD emptyArgs) = ToolCallOutcome.raises tn m →
      mcpToolAnswer e fc = Part.functionResponse fc.name
        (ToolPayload.error ("Tool execution failed: " ++ tn ++ ": " ++ m))) ∧
    (∀ (cfg : SimpleCfg) (http : Http) (fc : FunctionCall) (exc : PyExc),
      (NewRelicGeminiAgent.executeGraphql cfg http ((fc.args.getD emptyArgs).query.getD "")
          (some ((fc.args.getD emptyArgs).varsMap.getD []))).result = Except.error exc →
      NewRelicGeminiAgent.simpleToolAnswer cfg http fc = Part.functionResponse fc.name
        (ToolPayload.error ("Tool execution failed: " ++ exc.typeName ++ ": " ++ exc.msg))) ∧
    (∀ (b : Backend) (e : McpExec) (tl : List ToolDescriptor) (fuel : Nat)
       (resp : GenResponse) (contents : List Content), resp.function_calls ≠ [] →
       ∃ cl, (clientLoop b e tl (fuel + 1) resp contents).calls.head? = some cl ∧
         cl.snapshot = contents ++ [toolResultTurn (mcpToolAnswer e) resp.function_calls]) ∧
    (∀ (b : Backend) (cfg : SimpleCfg) (http : Http) (fuel : Nat)
       (resp : GenResponse) (contents : List Content), resp.function_calls ≠ [] →
       ∃ cl, (NewRelicGeminiAgent.simpleLoop b cfg http (fuel + 1) resp contents).calls.head? = some cl ∧
         cl.snapshot = contents ++
           [toolResultTurn (NewRelicGeminiAgent.simpleToolAnswer cfg http) resp.function_calls]) := by
  refine ⟨?_, ?_, ?_, ?_, ?_⟩
  · intro e fc t rest h
    simp [mcpToolAnswer, h]
  · intro e fc tn m h
    simp [mcpToolAnswer, h]
  · intro cfg http fc exc h
    simp [NewRelicGeminiAgent.simpleToolAnswer, h]
  · intro b e tl fuel resp contents hfc
    rw [clientLoop, if_neg hfc]
    split
    · exact ⟨_, rfl, rfl⟩
    · split
      · exact ⟨_, rfl, rfl⟩
      · exact ⟨_, rfl, rfl⟩
  · intro b cfg http fuel resp contents hfc
    rw [NewRelicGeminiAgent.simpleLoop, if_neg hfc]
    split
    · exact ⟨_, rfl, rfl⟩
    · split
      · exact ⟨_, rfl, rfl⟩
      · exact ⟨_, rfl, rfl⟩

/-- C5 witness: the theorem applied at concrete inputs. -/
theorem c5_amended_tool_failure_witness :
    mcpToolAnswer cexExecAppError ⟨"t", none⟩ =
      Part.functionResponse "t" (ToolPayload.error "bad query") ∧
    mcpToolAnswer cexExecRaises ⟨"t", none⟩ =
      Part.functionResponse "t" (ToolPayload.error "Tool execution failed: RuntimeError: boom") ∧
    NewRelicGeminiAgent.simpleToolAnswer cexCfg cexHttpDown ⟨"t", none⟩ =
      Part.functionResponse "t" (ToolPayload.error
        "Tool execution failed: Exception: Network error during GraphQL request: conn refused") ∧
    (∃ cl, (clientLoop cexBackendNoTools cexExecRaises cexTools 1 oneToolResp []).calls.head? = some cl ∧
      cl.snapshot = [] ++ [toolResultTurn (mcpToolAnswer cexExecRaises) oneToolResp.function_calls]) :=
  ⟨c5_amended_tool_failure.1 cexExecAppError ⟨"t", none⟩ "bad query" [] rfl,
   c5_amended_tool_failure.2.1 cexExecRaises ⟨"t", none⟩ "RuntimeError" "boom" rfl,
   c5_amended_tool_failure.2.2.1 cexCfg cexHttpDown ⟨"t", none⟩
     ⟨"Exception", "Network error during GraphQL request: conn refused"⟩ rfl,
   c5_amended_tool_failure.2.2.2.1 cexBackendNoTools cexExecRaises cexTools 0 oneToolResp []
     (by decide)⟩

/-- C5 counterexample: the transport-failure message built by the code is
Tool execution failed: type: cause; it does not begin with execution
failed: as the claim quotes it, only containing those words further in. -/
theorem c5_counterexample :
    mcpToolAnswer cexExecRaises ⟨"t", none⟩ =
      Part.functionResponse "t" (ToolPayload.error "Tool execution failed: RuntimeError: boom") ∧
    strStarts "execution failed: " "Tool execution failed: RuntimeError: boom" = false ∧
    strStarts "Tool execution failed: " "Tool execution failed: RuntimeError: boom" = true := by
  refine ⟨rfl, by decide, by decide⟩

/-- C8 amended: every direct executor call issues exactly one HTTP POST
whose JSON body carries the query and the prepared variables, under
request timeout 30; a transport exception, a non-200 status and an
unparsable 200 body are each surfaced as an executor error; but a 200
response whose parsed body carries an errors field is returned as a
successful result (the errors are only logged), not as an executor
error. -/
theorem c8_amended_http_executor (cfg : SimpleCfg) (http : Http) (q : String)
    (vars : Option (List (String × String))) :
    (NewRelicGeminiAgent.executeGraphql cfg http q vars).requests =
      [⟨cfg.endpoint, cfg.apiKey, q, NewRelicGeminiAgent.prepareVariables cfg.accountId vars, 30⟩] ∧
    (∀ m, http ⟨cfg.endpoint, cfg.apiKey, q,
        NewRelicGeminiAgent.prepareVariables cfg.accountId vars, 30⟩ = HttpOutcome.requestException m →
      (NewRelicGeminiAgent.executeGraphql cfg http q vars).result =
        Except.error ⟨"Exception", "Network error during GraphQL request: " ++ m⟩) ∧
    (∀ status json text, http ⟨cfg.endpoint, cfg.apiKey, q,
        NewRelicGeminiAgent.prepareVariables cfg.accountId vars, 30⟩ =
          HttpOutcome.response status json text → status ≠ 200 →
      ∃ exc, (NewRelicGeminiAgent.executeGraphql cfg http q vars).result = Except.error exc) ∧
    (∀ text, http ⟨cfg.endpoint, cfg.apiKey, q,
        NewRelicGeminiAgent.prepareVariables cfg.accountId vars, 30⟩ =
          HttpOutcome.response 200 none text →
      (NewRelicGeminiAgent.executeGraphql cfg http q vars).result =
        Except.error ⟨"Exception", "Invalid JSON response from GraphQL endpoint"⟩) ∧
    (∀ (j : GraphQLJson) (text : String), http ⟨cfg.endpoint, cfg.apiKey, q,
        NewRelicGeminiAgent.prepareVariables cfg.accountId vars, 30⟩ =
          HttpOutcome.response 200 (some j) text →
      (NewRelicGeminiAgent.executeGraphql cfg http q vars).result = Except.ok j) := by
  refine ⟨c10_account_id_injection.2.2.2.2 cfg http q vars, ?_, ?_, ?_, ?_⟩
  · intro m hh
    simp [NewRelicGeminiAgent.executeGraphql, hh]
  · intro status json text hh hs
    rcases json with _ | j
    · exact ⟨⟨"Exception", "GraphQL request failed with status code " ++ toString status ++ ": " ++ text⟩,
        by simp [NewRelicGeminiAgent.executeGraphql, hh, hs]⟩
    · rcases herr : j.errors with _ | errs
      · exact ⟨⟨"Exception", "GraphQL request failed with status code " ++ toString status⟩,
          by simp [NewRelicGeminiAgent.executeGraphql, hh, hs, herr]⟩
      · exact ⟨⟨"Exception", "GraphQL request failed with status code " ++ toString status ++ ": " ++ errorsRepr errs⟩,
          by simp [NewRelicGeminiAgent.executeGraphql, hh, hs, herr]⟩
  · intro text hh
    simp [NewRelicGeminiAgent.executeGraphql, hh]
  · intro j text hh
    simp [NewRelicGeminiAgent.executeGraphql, hh]

/-- C8 witness: the theorem applied at concrete HTTP layers. -/
theorem c8_amended_http_executor_witness :
    (NewRelicGeminiAgent.executeGraphql cexCfg cexHttpDown "q" none).result =
      Except.error ⟨"Exception", "Network error during GraphQL request: conn refused"⟩ ∧
    (∃ exc, (NewRelicGeminiAgent.executeGraphql cexCfg cexHttp500 "q" none).result =
      Except.error exc) ∧
    (NewRelicGeminiAgent.executeGraphql cexCfg cexHttpBadJson "q" none).result =
      Except.error ⟨"Exception", "Invalid JSON response from GraphQL endpoint"⟩ ∧
    (NewRelicGeminiAgent.executeGraphql cexCfg cexHttpOk "q" none).result =
      Except.ok ⟨some "1", none⟩ :=
  ⟨(c8_amended_http_executor cexCfg cexHttpDown "q" none).2.1 "conn refused" rfl,
   (c8_amended_http_executor cexCfg cexHttp500 "q" none).2.2.1 500 none "server error" rfl
     (by decide),
   (c8_amended_http_executor cexCfg cexHttpBadJson "q" none).2.2.2.1 "not json" rfl,
   (c8_amended_http_executor cexCfg cexHttpOk "q" none).2.2.2.2 ⟨some "1", none⟩ "raw" rfl⟩

/-- C8 counterexample: a 200 response whose errors field is populated is
returned to the orchestrator as a successful result carrying the errors,
not surfaced as an executor error. -/
theorem c8_counterexample :
    (NewRelicGeminiAgent.executeGraphql cexCfg cexHttp200Errors "query x" none).result =
      Except.ok ⟨some "1", some ["boom"]⟩ ∧
    (NewRelicGeminiAgent.executeGraphql cexCfg cexHttp200Errors "query x" none).requests.length = 1 := by
  exact ⟨rfl, rfl⟩

/-- C9 amended: the simplechat variant declares its catalog statically
and every backend call of every invocation advertises exactly it; the
client variant re-fetches the tool list on every respond() invocation
and advertises whatever that fetch returned for the whole turn, so the
advertised set tracks the per-invocation fetch instead of a one-time
population. -/
theorem c9_amended_catalog (b : Backend) (e : McpExec) (cfg : SimpleCfg) (http : Http)
    (tl : List ToolDescriptor) (init : List Content) (p : String) :
    (∀ c, c ∈ (NewRelicGeminiAgent.agent_loop b cfg http init p).calls →
      c.tools = simplechatTools) ∧
    (∀ c, c ∈ (MCPGeminiAgent.agent_loop b e (.ok tl) true init p).calls → c.tools = tl) := by
  constructor
  · intro c hc
    rcases hbo : b (init ++ [userTextTurn p]) Temp.t0 simplechatTools with m | resp
    · rw [simple_agent_loop_raises b cfg http init p m hbo] at hc
      simp at hc
      subst hc
      rfl
    · rcases hcand : resp.candidates.head? with _ | c0
      · rw [simple_agent_loop_nocand b cfg http init p resp hbo hcand] at hc
        simp at hc
        subst hc
        rfl
      · rw [simple_agent_loop_main b cfg http init p resp c0 hbo hcand, finishRun_calls] at hc
        simp only [List.mem_cons] at hc
        rcases hc with hc | hc
        · subst hc; rfl
        · exact (simpleLoop_calls_fields b cfg http 5 resp
            ((init ++ [userTextTurn p]) ++ [c0]) c hc).2
  · intro c hc
    rcases hbo : b (init ++ [userTextTurn p]) Temp.t0 tl with m | resp
    · rw [mcp_agent_loop_raises b e tl init p m hbo] at hc
      simp at hc
      subst hc
      rfl
    · rcases hcand : resp.candidates.head? with _ | c0
      · rw [mcp_agent_loop_nocand b e tl init p resp hbo hcand] at hc
        simp at hc
        subst hc
        rfl
      · rw [mcp_agent_loop_main b e tl init p resp c0 hbo hcand] at hc
        simp only [List.mem_cons] at hc
        rcases hc with hc | hc
        · subst hc; rfl
        · exact (clientLoop_calls_fields b e tl 5 resp
            ((init ++ [userTextTurn p]) ++ [c0]) c hc).2

/-- C9 witness: the theorem applied at concrete runs and calls. -/
theorem c9_amended_catalog_witness :
    (⟨[userTextTurn "q"], Temp.t0, simplechatTools⟩ : BackendCall).tools = simplechatTools ∧
    (⟨[userTextTurn "q"], Temp.t0, cexTools⟩ : BackendCall).tools = cexTools :=
  ⟨(c9_amended_catalog cexBackendNoTools cexExecOk cexCfg cexHttpOk cexTools [] "q").1
      ⟨[userTextTurn "q"], Temp.t0, simplechatTools⟩ (by decide),
   (c9_amended_catalog cexBackendNoTools cexExecOk cexCfg cexHttpOk cexTools [] "q").2
      ⟨[userTextTurn "q"], Temp.t0, cexTools⟩ (by decide)⟩

/-- C9 counterexample: the client variant re-fetches the tool list on
every invocation, so with a session whose advertised list changes between
two respond() calls of one conversation the catalog advertised to the
model changes mid-conversation. -/
theorem c9_counterexample :
    ((MCPGeminiAgent.agent_loop cexBackendNoTools cexExecOk (cexSessionTools 0) true [] "q1").calls.map
        (fun c => c.tools)) = [[⟨"toolA", "a"⟩]] ∧
    ((MCPGeminiAgent.agent_loop cexBackendNoTools cexExecOk (cexSessionTools 1) true
        (MCPGeminiAgent.agent_loop cexBackendNoTools cexExecOk (cexSessionTools 0) true [] "q1").contents
        "q2").calls.map (fun c => c.tools)) = [[⟨"toolA", "a"⟩, ⟨"toolB", "b"⟩]] ∧
    [(⟨"toolA", "a"⟩ : ToolDescriptor)] ≠ [⟨"toolA", "a"⟩, ⟨"toolB", "b"⟩] := by
  refine ⟨rfl, rfl, by decide⟩

/-- C4 amended: a failure of the initial backend call terminates the
turn immediately in both variants with a synthetic answer naming the
failure, no turn beyond the user turn, exactly one backend call and no
tool execution; a failure of a later call in the simplechat variant
likewise escapes the loop at once; but in the client variant a later
failure does not terminate the loop: the loop keeps the stale response,
appends the tool-result turn, and continues — re-executing the same tool
calls and retrying the backend on the remaining round-trips. -/
theorem c4_amended_backend_failure (b : Backend) (e : McpExec) (cfg : SimpleCfg) (http : Http)
    (tl : List ToolDescriptor) (init : List Content) (p m : String) :
    (b (init ++ [userTextTurn p]) Temp.t0 tl = GenOutcome.raises m →
      (MCPGeminiAgent.agent_loop b e (.ok tl) true init p).result =
        Except.ok ("Error calling Gemini API: " ++ m) ∧
      (MCPGeminiAgent.agent_loop b e (.ok tl) true init p).contents = init ++ [userTextTurn p] ∧
      (MCPGeminiAgent.agent_loop b e (.ok tl) true init p).calls.length = 1 ∧
      (MCPGeminiAgent.agent_loop b e (.ok tl) true init p).execs = []) ∧
    (b (init ++ [userTextTurn p]) Temp.t0 simplechatTools = GenOutcome.raises m →
      (NewRelicGeminiAgent.agent_loop b cfg http init p).result =
        Except.ok ("Error processing request: " ++ m) ∧
      (NewRelicGeminiAgent.agent_loop b cfg http init p).contents = init ++ [userTextTurn p] ∧
      (NewRelicGeminiAgent.agent_loop b cfg http init p).calls.length = 1) ∧
    (∀ (fuel : Nat) (resp : GenResponse) (contents : List Content),
      resp.function_calls ≠ [] →
      b (contents ++ [toolResultTurn (NewRelicGeminiAgent.simpleToolAnswer cfg http) resp.function_calls])
          Temp.t1 simplechatTools = GenOutcome.raises m →
      NewRelicGeminiAgent.simpleLoop b cfg http (fuel + 1) resp contents =
        ⟨Except.error m, false,
         contents ++ [toolResultTurn (NewRelicGeminiAgent.simpleToolAnswer cfg http) resp.function_calls],
         [⟨contents ++ [toolResultTurn (NewRelicGeminiAgent.simpleToolAnswer cfg http) resp.function_calls],
           Temp.t1, simplechatTools⟩]⟩) ∧
    (∀ (fuel : Nat) (resp : GenResponse) (contents : List Content),
      resp.function_calls ≠ [] →
      b (contents ++ [toolResultTurn (mcpToolAnswer e) resp.function_calls]) Temp.t1 tl =
        GenOutcome.raises m →
      clientLoop b e tl (fuel + 1) resp contents =
        consCallC ⟨contents ++ [toolResultTurn (mcpToolAnswer e) resp.function_calls], Temp.t1, tl⟩
          (resp.function_calls.map (fun fc => (fc.name, fc.args.getD emptyArgs)))
          (clientLoop b e tl fuel resp
            (contents ++ [toolResultTurn (mcpToolAnswer e) resp.function_calls]))) := by
  refine ⟨?_, ?_, ?_, ?_⟩
  · intro hbo
    rw [mcp_agent_loop_raises b e tl init p m hbo]
    exact ⟨rfl, rfl, rfl, rfl⟩
  · intro hbo
    rw [simple_agent_loop_raises b cfg http init p m hbo]
    exact ⟨rfl, rfl, rfl⟩
  · exact fun fuel resp contents hfc hbo =>
      simpleLoop_step_raises b cfg http fuel resp contents hfc m hbo
  · exact fun fuel resp contents hfc hbo =>
      clientLoop_step_raises b e tl fuel resp contents hfc m hbo

/-- C4 witness: the theorem applied at a backend that fails on the first
call. -/
theorem c4_amended_backend_failure_witness :
    (MCPGeminiAgent.agent_loop cexBackendFailsNow cexExecOk (.ok cexTools) true [] "q").result =
      Except.ok ("Error calling Gemini API: " ++ "down") ∧
    (NewRelicGeminiAgent.agent_loop cexBackendFailsNow cexCfg cexHttpOk [] "q").result =
      Except.ok ("Error processing request: " ++ "down") :=
  ⟨((c4_amended_backend_failure cexBackendFailsNow cexExecOk cexCfg cexHttpOk cexTools [] "q"
      "down").1 rfl).1,
   ((c4_amended_backend_failure cexBackendFailsNow cexExecOk cexCfg cexHttpOk cexTools [] "q"
      "down").2.1 rfl).1⟩

/-- C4 counterexample: with a backend that fails from the second call
onwards, the client loop does not terminate at the failure: six backend
calls are made in total, the single tool invocation of the stale reply is
re-executed five times, and the turn returns the stale text. -/
theorem c4_counterexample :
    (MCPGeminiAgent.agent_loop cexBackendFailsLater cexExecOk (.ok cexTools) true [] "q").calls.length = 6 ∧
    (MCPGeminiAgent.agent_loop cexBackendFailsLater cexExecOk (.ok cexTools) true [] "q").execs =
      [("executeQuery", emptyArgs), ("executeQuery", emptyArgs), ("executeQuery", emptyArgs),
       ("executeQuery", emptyArgs), ("executeQuery", emptyArgs)] ∧
    (MCPGeminiAgent.agent_loop cexBackendFailsLater cexExecOk (.ok cexTools) true [] "q").result =
      Except.ok "t0" := by
  exact ⟨rfl, rfl, rfl⟩

/-- C1 amended: against a model backend that requests at least one tool
invocation on every reply, both variants terminate after exactly 5 tool
round-trips (six backend calls in total) and never hang; the simplechat
variant returns a truncation-flagged string consisting of the truncation
notice followed by the text the model last produced, while the client
variant returns the last text with no truncation flag in it (its notice
goes only to the console). -/
theorem c1_amended_truncation (b : Backend) (e : McpExec) (cfg : SimpleCfg) (http : Http)
    (tl : List ToolDescriptor) (init : List Content) (p : String)
    (hb : AlwaysToolBackend b) :
    ((MCPGeminiAgent.agent_loop b e (.ok tl) true init p).calls.length = 6 ∧
     ∃ cl r c t, lastCall (MCPGeminiAgent.agent_loop b e (.ok tl) true init p).calls = some cl ∧
       b cl.snapshot Temp.t1 tl = GenOutcome.returns r ∧
       r.candidates.head? = some c ∧ c.textAttr = some t ∧
       (MCPGeminiAgent.agent_loop b e (.ok tl) true init p).result = Except.ok t) ∧
    ((NewRelicGeminiAgent.agent_loop b cfg http init p).calls.length = 6 ∧
     ∃ cl r t, lastCall (NewRelicGeminiAgent.agent_loop b cfg http init p).calls = some cl ∧
       b cl.snapshot Temp.t1 simplechatTools = GenOutcome.returns r ∧ r.text = Except.ok t ∧
       (NewRelicGeminiAgent.agent_loop b cfg http init p).result =
         Except.ok ("Response exceeded maximum of 5 tool calls. Partial response: " ++ t)) := by
  constructor
  · obtain ⟨r0, c0, t0, hbeq0, hrfc0, hcand0, hct0, hrt0⟩ :=
      hb (init ++ [userTextTurn p]) Temp.t0 tl
    rw [mcp_agent_loop_main b e tl init p r0 c0 hbeq0 hcand0]
    obtain ⟨hlen, hfz, hlast⟩ :=
      clientLoop_alwaysTool b e tl hb 5 r0 ((init ++ [userTextTurn p]) ++ [c0]) hrfc0
    obtain ⟨cl, rl, hcl, hbeq2, hresp2⟩ := hlast 4 rfl
    obtain ⟨r2, c2, t2, hbeq3, hrfc2, hcand2, hct2, hrt2⟩ := hb cl.snapshot Temp.t1 tl
    rw [hbeq3] at hbeq2
    injection hbeq2 with hrl
    subst hrl
    have hne : (clientLoop b e tl 5 r0 ((init ++ [userTextTurn p]) ++ [c0])).calls ≠ [] := by
      intro hnil
      rw [hnil] at hlen
      simp at hlen
    constructor
    · show (BackendCall.mk (init ++ [userTextTurn p]) Temp.t0 tl ::
        (clientLoop b e tl 5 r0 ((init ++ [userTextTurn p]) ++ [c0])).calls).length = 6
      rw [List.length_cons, hlen]
    · refine ⟨cl, r2, c2, t2, ?_, hbeq3, hcand2, hct2, ?_⟩
      · show lastCall (BackendCall.mk (init ++ [userTextTurn p]) Temp.t0 tl ::
          (clientLoop b e tl 5 r0 ((init ++ [userTextTurn p]) ++ [c0])).calls) = some cl
        rw [lastCall_cons _ _ hne]
        exact hcl
      · show Except.ok (clientFinalText
          (clientLoop b e tl 5 r0 ((init ++ [userTextTurn p]) ++ [c0])).resp) = Except.ok t2
        rw [hresp2]
        simp [clientFinalText, hcand2, hct2]
  · obtain ⟨r0, c0, t0, hbeq0, hrfc0, hcand0, hct0, hrt0⟩ :=
      hb (init ++ [userTextTurn p]) Temp.t0 simplechatTools
    rw [simple_agent_loop_main b cfg http init p r0 c0 hbeq0 hcand0]
    obtain ⟨hlen, hexh, hfz, hlast⟩ :=
      simpleLoop_alwaysTool b cfg http hb 5 r0 ((init ++ [userTextTurn p]) ++ [c0]) hrfc0
    obtain ⟨cl, rl, hcl, hbeq2, hout2⟩ := hlast 4 rfl
    obtain ⟨r2, c2, t2, hbeq3, hrfc2, hcand2, hct2, hrt2⟩ := hb cl.snapshot Temp.t1 simplechatTools
    rw [hbeq3] at hbeq2
    injection hbeq2 with hrl
    subst hrl
    have hne : (NewRelicGeminiAgent.simpleLoop b cfg http 5 r0
        ((init ++ [userTextTurn p]) ++ [c0])).calls ≠ [] := by
      intro hnil
      rw [hnil] at hlen
      simp at hlen
    constructor
    · rw [finishRun_calls, List.length_cons, hlen]
    · refine ⟨cl, r2, t2, ?_, hbeq3, hrt2, ?_⟩
      · rw [finishRun_calls, lastCall_cons _ _ hne]
        exact hcl
      · exact finishRun_truncation _ _ r2 t2 hout2 hexh hrfc2 hrt2

/-- C1 witness: the theorem applied to the always-tool fixture. -/
theorem c1_amended_truncation_witness :
    AlwaysToolBackend cexBackendAlways ∧
    (MCPGeminiAgent.agent_loop cexBackendAlways cexExecOk (.ok cexTools) true [] "hi").calls.length = 6 ∧
    (NewRelicGeminiAgent.agent_loop cexBackendAlways cexCfg cexHttpOk [] "hi").calls.length = 6 :=
  ⟨alwaysTool_cexBackendAlways,
   (c1_amended_truncation cexBackendAlways cexExecOk cexCfg cexHttpOk cexTools [] "hi"
      alwaysTool_cexBackendAlways).1.1,
   (c1_amended_truncation cexBackendAlways cexExecOk cexCfg cexHttpOk cexTools [] "hi"
      alwaysTool_cexBackendAlways).2.1⟩

/-- C1 counterexample: under an always-tool backend the client variant
returns exactly the text the model last produced with no truncation
notice anywhere in the returned string, refuting the claimed
truncation-flagged return for that variant. -/
theorem c1_counterexample :
    (MCPGeminiAgent.agent_loop cexBackendAlways cexExecOk (.ok cexTools) true [] "hi").result =
      Except.ok "m11" ∧
    (MCPGeminiAgent.agent_loop cexBackendAlways cexExecOk (.ok cexTools) true [] "hi").calls.length = 6 := by
  exact ⟨rfl, rfl⟩

end Tytux
